import Mathlib

/-!
Verification development for the lux-kernel sources: a shallow embedding of
the process scheduler (`src/kernel/core/process.c`), the PS/2 keyboard driver
(`src/kernel/drivers/input/keyboard.c`) and the LUXFS filesystem
(`src/kernel/fs/fs.c`), together with theorems settling the specification
claims about them.

Modelling conventions:
* machine integers become `Nat` (all the relevant arithmetic stays in range;
  where C wraps, an explicit `%` appears);
* C global mutable state becomes explicit state records threaded through the
  functions;
* external collaborators (heap allocator, CPU context switch, ATA device,
  interrupt handlers registered by other modules) are modelled at their
  interface: the heap always satisfies allocations, the context switch is
  recorded in a log, the disk is a reliable store, and raising a signal is
  recorded in a log of delivered signals;
* fallible C functions returning `bool` plus out-parameters become functions
  returning `Option`/`Bool ×` results.
-/

set_option maxRecDepth 8192

namespace LuxKernel

/-! ## Process scheduler — src/kernel/core/process.c -/

/-- `enum process_state` from `process.h`; `READY` is the zero value. -/
inductive ProcessState
  | READY
  | RUNNING
  | SLEEPING
  | STOPPED
deriving DecidableEq, Repr

/-- `struct process` (PCB). The CPU context and the stack pointer are opaque
collaborators (assembly / heap) and carry no information the scheduler logic
reads, so they are not part of the model. -/
structure Process where
  pid : Nat
  state : ProcessState
  wake_time_ticks : Nat
  priority : Nat
deriving DecidableEq, Repr

/-- A PCB whose bytes are all zero (`memset(...,0,...)`); the zero value of
`enum process_state` is `READY`. -/
def zeroProcess : Process :=
  { pid := 0, state := .READY, wake_time_ticks := 0, priority := 0 }

def MAX_PROCESSES : Nat := 16

/-- The scheduler's global mutable state (`process_table`,
`process_count_active`, `next_pid`, `current_process`,
`current_process_index`).  `current_process` is the pointer into the table,
modelled as an optional index.  `ctx_switches` logs every call of the
assembly primitive `process_context_switch(from, to)` as an
(old index option, new index) pair. -/
structure SchedState where
  process_table : List Process
  process_count_active : Nat
  next_pid : Nat
  current_process : Option Nat
  current_process_index : Nat
  ctx_switches : List (Option Nat × Nat)
deriving DecidableEq, Repr

/-- `process_manager_init`. -/
def process_manager_init : SchedState :=
  { process_table := List.replicate MAX_PROCESSES zeroProcess
    process_count_active := 0
    next_pid := 1
    current_process := none
    current_process_index := 0
    ctx_switches := [] }

def getProc (st : SchedState) (i : Nat) : Process :=
  st.process_table.getD i zeroProcess

def setProc (st : SchedState) (i : Nat) (p : Process) : SchedState :=
  { st with process_table := st.process_table.set i p }

/-- The slot scan of `process_alloc`: first slot with
`state == PROCESS_STATE_STOPPED && pid == 0`. -/
def findFreeSlot (table : List Process) : Option Nat :=
  (List.range MAX_PROCESSES).find? fun i =>
    decide ((table.getD i zeroProcess).state = .STOPPED ∧ (table.getD i zeroProcess).pid = 0)

/-- `process_create` composed with `process_alloc`.  The entry point is an
opaque non-NULL code pointer and `malloc` (an external collaborator) is
modelled as always succeeding; `stack_size` only sizes the opaque stack and
does not influence the scheduling state beyond being accepted. -/
def process_create (st : SchedState) (stack_size : Nat) : SchedState × Int :=
  let _ := stack_size
  if MAX_PROCESSES ≤ st.process_count_active then (st, -1)
  else
    match findFreeSlot st.process_table with
    | none => (st, -1)
    | some i =>
        let p : Process :=
          { pid := st.next_pid, state := .READY, wake_time_ticks := 0, priority := 128 }
        ({ st with
            process_table := st.process_table.set i p
            process_count_active := st.process_count_active + 1
            next_pid := st.next_pid + 1 },
         Int.ofNat st.next_pid)

/-- `process_free` on table slot `i`. -/
def process_free (st : SchedState) (i : Nat) : SchedState :=
  if (getProc st i).pid = 0 then st
  else
    { st with
        process_table := st.process_table.set i
          { getProc st i with pid := 0, state := .STOPPED }
        process_count_active := st.process_count_active - 1 }

def isReadySlot (table : List Process) (i : Nat) : Prop :=
  (table.getD i zeroProcess).pid ≠ 0 ∧ (table.getD i zeroProcess).state = .READY

instance (table : List Process) (i : Nat) : Decidable (isReadySlot table i) := by
  unfold isReadySlot; infer_instance

def isActiveSlot (table : List Process) (i : Nat) : Prop :=
  (table.getD i zeroProcess).pid ≠ 0 ∧ (table.getD i zeroProcess).state ≠ .STOPPED

instance (table : List Process) (i : Nat) : Decidable (isActiveSlot table i) := by
  unfold isActiveSlot; infer_instance

/-- The do-while round-robin scan of `process_schedule`: starting at slot
`idx`, visit `k` consecutive slots (wrapping mod 16) and return the first
one holding a READY process with a non-zero pid. -/
def scanReadyFrom (table : List Process) (idx : Nat) : Nat → Option Nat
  | 0 => none
  | k + 1 =>
      if isReadySlot table (idx % MAX_PROCESSES) then some (idx % MAX_PROCESSES)
      else scanReadyFrom table (idx + 1) k

/-- The fallback scan of `process_schedule`: first slot (from 0) with a
non-zero pid whose state is not STOPPED. -/
def scanActive (table : List Process) : Nat → Option Nat
  | 0 => none
  | k + 1 =>
      let i := MAX_PROCESSES - (k + 1)
      if isActiveSlot table i then some i
      else scanActive table k

/-- Tail of `process_schedule` once a slot `idx` was selected: mark it
RUNNING, record it as the last-scheduled index, and perform
`process_context_switch` exactly when the selected process differs from
`current_process`. -/
def schedule_switch (st : SchedState) (idx : Nat) : SchedState :=
  let st1 := { setProc st idx { getProc st idx with state := .RUNNING } with
                 current_process_index := idx }
  if st1.current_process = some idx then st1
  else
    { st1 with
        current_process := some idx
        ctx_switches := st1.ctx_switches ++ [(st1.current_process, idx)] }

/-- The test `current_process && current_process->state == PROCESS_STATE_RUNNING`
from `process_schedule`. -/
def currentRunning (st : SchedState) : Bool :=
  match st.current_process with
  | some c => decide ((getProc st c).state = .RUNNING)
  | none => false

/-- `process_schedule`. -/
def process_schedule (st : SchedState) : SchedState :=
  if st.process_count_active = 0 then { st with current_process := none }
  else
    match scanReadyFrom st.process_table ((st.current_process_index + 1) % MAX_PROCESSES)
        MAX_PROCESSES with
    | some idx => schedule_switch st idx
    | none =>
        if currentRunning st then st
        else
          match scanActive st.process_table MAX_PROCESSES with
          | some i => schedule_switch st i
          | none => st

/-- `process_exit`. -/
def process_exit (st : SchedState) : SchedState :=
  match st.current_process with
  | none => st
  | some c => process_schedule { process_free st c with current_process := none }

/-- `process_sleep`. -/
def process_sleep (st : SchedState) (ticks : Nat) : SchedState :=
  match st.current_process with
  | none => st
  | some c =>
      process_schedule
        (setProc st c { getProc st c with state := .SLEEPING, wake_time_ticks := ticks })

/-- `process_yield`. -/
def process_yield (st : SchedState) : SchedState :=
  let st1 :=
    match st.current_process with
    | some c =>
        if (getProc st c).state = .RUNNING then
          setProc st c { getProc st c with state := .READY }
        else st
    | none => st
  process_schedule st1

/-- `process_get_by_pid`: index of the first slot whose pid equals `pid`. -/
def process_get_by_pid (table : List Process) (pid : Nat) : Option Nat :=
  (List.range MAX_PROCESSES).find? fun i => decide ((table.getD i zeroProcess).pid = pid)

/-- `process_kill`. -/
def process_kill (st : SchedState) (pid : Nat) : SchedState × Bool :=
  match process_get_by_pid st.process_table pid with
  | none => (st, false)
  | some j =>
      if st.current_process = some j then (process_exit st, true)
      else (process_free st j, true)

/-- `process_update_sleep_times`. -/
def process_update_sleep_times (st : SchedState) (ticks_elapsed : Nat) : SchedState :=
  { st with
      process_table := st.process_table.map fun p =>
        if p.pid ≠ 0 ∧ p.state = .SLEEPING then
          if p.wake_time_ticks ≤ ticks_elapsed then
            { p with wake_time_ticks := 0, state := .READY }
          else { p with wake_time_ticks := p.wake_time_ticks - ticks_elapsed }
        else p }

/-- The scheduler entry points named by claim C1, as an operation alphabet. -/
inductive SchedOp
  | create (stack_size : Nat)
  | exited
  | sleep (ticks : Nat)
  | yield
  | kill (pid : Nat)
  | schedule
  | updateSleep (ticks : Nat)

def applySchedOp (st : SchedState) : SchedOp → SchedState
  | .create s => (process_create st s).1
  | .exited => process_exit st
  | .sleep t => process_sleep st t
  | .yield => process_yield st
  | .kill p => (process_kill st p).1
  | .schedule => process_schedule st
  | .updateSleep t => process_update_sleep_times st t

/-- State reached by a call sequence starting from `process_manager_init`. -/
def runSchedOps (ops : List SchedOp) : SchedState :=
  ops.foldl applySchedOp process_manager_init

/-- Number of PCBs in the table whose state is RUNNING. -/
def countRunning (table : List Process) : Nat :=
  table.countP fun p => decide (p.state = .RUNNING)

/-- After `process_manager_init`, every slot holds `pid = 0` with state
`READY` (the memset-zero value), so `process_alloc`'s scan for
`STOPPED && pid == 0` finds nothing and no entry point mutates the state:
each of the seven operations maps the initial state to itself. -/
theorem applySchedOp_init (op : SchedOp) :
    applySchedOp process_manager_init op = process_manager_init := by
  cases op with
  | create s => rfl
  | exited => rfl
  | sleep t => rfl
  | yield => rfl
  | kill p =>
      rcases Nat.eq_zero_or_pos p with hp | hp
      · subst hp; rfl
      · have h : process_get_by_pid process_manager_init.process_table p = none := by
          apply List.find?_eq_none.mpr
          intro i _
          have hz : (process_manager_init.process_table).getD i zeroProcess = zeroProcess := by
            show (List.replicate MAX_PROCESSES zeroProcess).getD i zeroProcess = zeroProcess
            rw [List.getD_eq_getElem?_getD]
            rcases Nat.lt_or_ge i MAX_PROCESSES with h16 | h16
            · rw [List.getElem?_eq_getElem (by simpa using h16)]
              simp
            · rw [List.getElem?_eq_none (by simpa using h16)]
              rfl
          rw [hz]
          simp only [zeroProcess, decide_eq_true_eq]
          omega
        simp [applySchedOp, process_kill, h]
  | schedule => rfl
  | updateSleep t => rfl

theorem runSchedOps_eq_init (ops : List SchedOp) :
    runSchedOps ops = process_manager_init := by
  induction ops with
  | nil => rfl
  | cons o t ih =>
      show (o :: t).foldl applySchedOp process_manager_init = _
      rw [List.foldl_cons, applySchedOp_init]
      exact ih

/-- C1: for every state reachable from `process_manager_init` by any sequence
of `process_create`, `process_exit`, `process_sleep`, `process_yield`,
`process_kill`, `process_schedule` and `process_update_sleep_times` calls, at
most one PCB in the 16-slot process table has state RUNNING.  (The invariant
holds because the memset-zeroed table leaves every slot READY with pid 0,
`process_alloc` only reuses slots with `state == STOPPED && pid == 0`, so no
operation ever changes the state and no PCB is ever RUNNING.) -/
theorem scheduler_at_most_one_running (ops : List SchedOp) :
    countRunning (runSchedOps ops).process_table ≤ 1 := by
  rw [runSchedOps_eq_init]
  decide

theorem scanReadyFrom_eq_some (T : List Process) :
    ∀ (k idx j0 : Nat), j0 < k →
      isReadySlot T ((idx + j0) % MAX_PROCESSES) →
      (∀ j, j < j0 → ¬ isReadySlot T ((idx + j) % MAX_PROCESSES)) →
      scanReadyFrom T idx k = some ((idx + j0) % MAX_PROCESSES) := by
  intro k
  induction k with
  | zero => intro idx j0 h; omega
  | succ k ih =>
      intro idx j0 hj0 hready hmin
      cases j0 with
      | zero =>
          simp only [Nat.add_zero] at hready
          simp only [scanReadyFrom]
          rw [if_pos hready]
          rfl
      | succ j =>
          have h0 : ¬ isReadySlot T (idx % MAX_PROCESSES) := by
            have := hmin 0 (Nat.succ_pos j)
            simpa using this
          simp only [scanReadyFrom]
          rw [if_neg h0]
          have heq : idx + 1 + j = idx + (j + 1) := by omega
          have := ih (idx + 1) j (by omega)
            (by rw [heq]; exact hready)
            (fun j' hj' => by
              rw [show idx + 1 + j' = idx + (j' + 1) from by omega]
              exact hmin (j' + 1) (by omega))
          rw [this, heq]

theorem scanReadyFrom_eq_none (T : List Process) :
    ∀ (k idx : Nat), (∀ j, j < k → ¬ isReadySlot T ((idx + j) % MAX_PROCESSES)) →
      scanReadyFrom T idx k = none := by
  intro k
  induction k with
  | zero => intro idx _; rfl
  | succ k ih =>
      intro idx hmin
      have h0 : ¬ isReadySlot T (idx % MAX_PROCESSES) := by
        have := hmin 0 (Nat.succ_pos k)
        simpa using this
      simp only [scanReadyFrom]
      rw [if_neg h0]
      exact ih (idx + 1) fun j hj => by
        rw [show idx + 1 + j = idx + (j + 1) from by omega]
        exact hmin (j + 1) (by omega)

theorem scanActive_eq_some (T : List Process) :
    ∀ (k i0 : Nat), k ≤ MAX_PROCESSES → MAX_PROCESSES - k ≤ i0 → i0 < MAX_PROCESSES →
      isActiveSlot T i0 → (∀ i, MAX_PROCESSES - k ≤ i → i < i0 → ¬ isActiveSlot T i) →
      scanActive T k = some i0 := by
  intro k
  induction k with
  | zero =>
      intro i0 _ hle hlt
      simp only [MAX_PROCESSES] at hle hlt
      omega
  | succ k ih =>
      intro i0 hk hle hlt hact hmin
      simp only [scanActive]
      rcases Nat.eq_or_lt_of_le hle with heq | hgt
      · rw [if_pos (show isActiveSlot T (MAX_PROCESSES - (k + 1)) by rw [heq]; exact hact), heq]
      · have hne : ¬ isActiveSlot T (MAX_PROCESSES - (k + 1)) :=
          hmin _ le_rfl hgt
        rw [if_neg hne]
        exact ih i0 (by omega) (by omega) hlt hact
          (fun i hi hilt => hmin i (by omega) hilt)

theorem scanActive_eq_none (T : List Process) :
    ∀ (k : Nat), k ≤ MAX_PROCESSES →
      (∀ i, MAX_PROCESSES - k ≤ i → i < MAX_PROCESSES → ¬ isActiveSlot T i) →
      scanActive T k = none := by
  intro k
  induction k with
  | zero => intro _ _; rfl
  | succ k ih =>
      intro hk hmin
      simp only [scanActive]
      rw [if_neg (hmin _ le_rfl (by omega))]
      exact ih (by omega) fun i hi hilt => hmin i (by omega) hilt

theorem scanReadyFrom_lt (T : List Process) :
    ∀ (k idx v : Nat), scanReadyFrom T idx k = some v → v < MAX_PROCESSES := by
  intro k
  induction k with
  | zero => intro idx v h; simp [scanReadyFrom] at h
  | succ k ih =>
      intro idx v h
      simp only [scanReadyFrom] at h
      split at h
      · cases h
        exact Nat.mod_lt _ (by simp [MAX_PROCESSES])
      · exact ih (idx + 1) v h

theorem scanActive_lt (T : List Process) :
    ∀ (k v : Nat), 0 < k → k ≤ MAX_PROCESSES → scanActive T k = some v → v < MAX_PROCESSES := by
  intro k
  induction k with
  | zero => intro v h; omega
  | succ k ih =>
      intro v _ hk h
      simp only [scanActive] at h
      split at h
      · cases h; omega
      · exact ih v (by
          rcases Nat.eq_zero_or_pos k with h0 | h0
          · subst h0; simp [scanActive] at h
          · exact h0) (by omega) h

/-- The observable effect claim C5 ascribes to a `process_schedule` call that
selects slot `idx`: it becomes `current_process` and the last-scheduled
index, its PCB is marked RUNNING, and `process_context_switch` is invoked
exactly when the selection differs from the previous `current_process`. -/
def SelectedAndSwitched (st st' : SchedState) (idx : Nat) : Prop :=
  st'.current_process = some idx ∧
  st'.current_process_index = idx ∧
  (getProc st' idx).state = .RUNNING ∧
  st'.ctx_switches =
    (if st.current_process = some idx then st.ctx_switches
     else st.ctx_switches ++ [(st.current_process, idx)])

theorem schedule_switch_spec (st : SchedState) (idx : Nat)
    (hlen : st.process_table.length = MAX_PROCESSES) (hidx : idx < MAX_PROCESSES) :
    SelectedAndSwitched st (schedule_switch st idx) idx := by
  have hget : ((st.process_table.set idx { getProc st idx with state := .RUNNING }).getD idx
      zeroProcess).state = ProcessState.RUNNING := by
    rw [List.getD_eq_getElem _ _ (by rw [List.length_set, hlen]; exact hidx)]
    rw [List.getElem_set_self]
  unfold SelectedAndSwitched
  simp only [schedule_switch, setProc]
  by_cases hc : st.current_process = some idx
  · rw [if_pos hc]
    exact ⟨hc, rfl, hget, by rw [if_pos hc]⟩
  · rw [if_neg hc]
    exact ⟨rfl, rfl, hget, by rw [if_neg hc]⟩

theorem count_active_ne_zero (st : SchedState) (i : Nat)
    (hlen : st.process_table.length = MAX_PROCESSES) (hi : i < MAX_PROCESSES)
    (hpid : (getProc st i).pid ≠ 0)
    (hcnt : st.process_count_active = st.process_table.countP fun p => decide (p.pid ≠ 0)) :
    ¬ st.process_count_active = 0 := by
  rw [hcnt]
  have hmem : st.process_table.getD i zeroProcess ∈ st.process_table := by
    rw [List.getD_eq_getElem _ _ (by omega)]
    exact List.getElem_mem _
  have hpos : 0 < st.process_table.countP fun p => decide (p.pid ≠ 0) :=
    List.countP_pos_iff.mpr ⟨_, hmem, by simp only [decide_eq_true_eq]; exact hpid⟩
  omega

/-- The behaviour claim C5 ascribes to `process_schedule`, as a predicate on
the pre-state: (a) the first slot with non-zero pid in READY state in the
circular scan starting one slot past the last-scheduled index is selected;
(b) with no READY slot and a RUNNING current process the state is unchanged;
(c) with no READY slot and no RUNNING current process the first slot with
non-zero pid whose state is not STOPPED is selected; selection marks the
slot RUNNING and context-switches exactly when it differs from the current
process. -/
def ScheduleSpecStatement (st : SchedState) : Prop :=
    (∀ j0, j0 < MAX_PROCESSES →
      isReadySlot st.process_table
        (((st.current_process_index + 1) % MAX_PROCESSES + j0) % MAX_PROCESSES) →
      (∀ j, j < j0 → ¬ isReadySlot st.process_table
        (((st.current_process_index + 1) % MAX_PROCESSES + j) % MAX_PROCESSES)) →
      SelectedAndSwitched st (process_schedule st)
        (((st.current_process_index + 1) % MAX_PROCESSES + j0) % MAX_PROCESSES))
    ∧
    ((∀ i, i < MAX_PROCESSES → ¬ isReadySlot st.process_table i) →
      ∀ c, st.current_process = some c → c < MAX_PROCESSES → (getProc st c).pid ≠ 0 →
      (getProc st c).state = .RUNNING → process_schedule st = st)
    ∧
    ((∀ i, i < MAX_PROCESSES → ¬ isReadySlot st.process_table i) →
      (∀ c, st.current_process = some c → (getProc st c).state ≠ .RUNNING) →
      ∀ i0, i0 < MAX_PROCESSES → isActiveSlot st.process_table i0 →
      (∀ i, i < i0 → ¬ isActiveSlot st.process_table i) →
      SelectedAndSwitched st (process_schedule st) i0)

/-- C5: for every process-table state (with a 16-entry table and a consistent
active count), `process_schedule` selects the first non-zero-pid READY slot
in the circular scan starting one slot past the last-scheduled index; if no
READY slot exists it keeps the current process when that one is RUNNING, and
otherwise selects the first non-zero-pid slot whose state is not STOPPED; it
invokes the context-switch primitive exactly when the selected process
differs from the current one. -/
theorem process_schedule_spec (st : SchedState)
    (hlen : st.process_table.length = MAX_PROCESSES)
    (hcnt : st.process_count_active = st.process_table.countP fun p => decide (p.pid ≠ 0)) :
    ScheduleSpecStatement st := by
  unfold ScheduleSpecStatement
  refine ⟨?_, ?_, ?_⟩
  · -- (a) round-robin selection of the first READY slot
    intro j0 hj0 hready hmin
    have htarget : (((st.current_process_index + 1) % MAX_PROCESSES + j0) % MAX_PROCESSES)
        < MAX_PROCESSES := Nat.mod_lt _ (by decide)
    have hne : ¬ st.process_count_active = 0 :=
      count_active_ne_zero st _ hlen htarget hready.1 hcnt
    have hscan := scanReadyFrom_eq_some st.process_table MAX_PROCESSES
      ((st.current_process_index + 1) % MAX_PROCESSES) j0 hj0 hready hmin
    have heq : process_schedule st = schedule_switch st
        (((st.current_process_index + 1) % MAX_PROCESSES + j0) % MAX_PROCESSES) := by
      unfold process_schedule
      rw [if_neg hne, hscan]
    rw [heq]
    exact schedule_switch_spec st _ hlen htarget
  · -- (b) no READY slot, current process RUNNING: nothing changes
    intro hnoready c hc hclt hcpid hcrun
    have hne : ¬ st.process_count_active = 0 :=
      count_active_ne_zero st c hlen hclt hcpid hcnt
    have hscan := scanReadyFrom_eq_none st.process_table MAX_PROCESSES
      ((st.current_process_index + 1) % MAX_PROCESSES)
      (fun j _ => hnoready _ (Nat.mod_lt _ (by decide)))
    have hkeep : currentRunning st = true := by
      unfold currentRunning
      rw [hc]
      simp [hcrun]
    unfold process_schedule
    rw [if_neg hne, hscan, hkeep]
    rfl
  · -- (c) fallback: first non-zero-pid, non-STOPPED slot
    intro hnoready hnorun i0 hi0 hact hmin
    have hne : ¬ st.process_count_active = 0 :=
      count_active_ne_zero st i0 hlen hi0 hact.1 hcnt
    have hscan := scanReadyFrom_eq_none st.process_table MAX_PROCESSES
      ((st.current_process_index + 1) % MAX_PROCESSES)
      (fun j _ => hnoready _ (Nat.mod_lt _ (by decide)))
    have hscan2 := scanActive_eq_some st.process_table MAX_PROCESSES i0 le_rfl
      (by omega) hi0 hact (fun i _ hilt => hmin i hilt)
    have hkeep : currentRunning st = false := by
      unfold currentRunning
      cases hcur : st.current_process with
      | none => rfl
      | some c => simpa using hnorun c hcur
    have heq : process_schedule st = schedule_switch st i0 := by
      unfold process_schedule
      rw [if_neg hne, hscan, hkeep, hscan2]
      rfl
    rw [heq]
    exact schedule_switch_spec st i0 hlen hi0

/-- A concrete scheduler state with one READY process in slot 2, used to
witness the hypotheses of `process_schedule_spec`. -/
def schedWitnessState : SchedState :=
  { process_table :=
      [zeroProcess, zeroProcess,
       { pid := 5, state := .READY, wake_time_ticks := 0, priority := 128 },
       zeroProcess, zeroProcess, zeroProcess, zeroProcess, zeroProcess,
       zeroProcess, zeroProcess, zeroProcess, zeroProcess, zeroProcess,
       zeroProcess, zeroProcess, zeroProcess]
    process_count_active := 1
    next_pid := 6
    current_process := none
    current_process_index := 0
    ctx_switches := [] }

theorem process_schedule_spec_witness :
    schedWitnessState.process_table.length = MAX_PROCESSES ∧
    schedWitnessState.process_count_active =
      schedWitnessState.process_table.countP (fun p => decide (p.pid ≠ 0)) ∧
    ScheduleSpecStatement schedWitnessState :=
  ⟨by decide, by decide, process_schedule_spec schedWitnessState (by decide) (by decide)⟩

theorem getD_map_lt {α β : Type} (f : α → β) (l : List α) (i : Nat) (d : α) (d' : β)
    (h : i < l.length) : (l.map f).getD i d' = f (l.getD i d) := by
  rw [List.getD_eq_getElem _ _ (by simpa using h), List.getD_eq_getElem _ _ h,
    List.getElem_map]

theorem getProc_update_sleep (st : SchedState) (e i : Nat)
    (h : i < st.process_table.length) :
    getProc (process_update_sleep_times st e) i =
      (if (getProc st i).pid ≠ 0 ∧ (getProc st i).state = .SLEEPING then
        if (getProc st i).wake_time_ticks ≤ e then
          { getProc st i with wake_time_ticks := 0, state := .READY }
        else { getProc st i with
                 wake_time_ticks := (getProc st i).wake_time_ticks - e }
      else getProc st i) := by
  show (st.process_table.map _).getD i zeroProcess = _
  rw [getD_map_lt _ _ _ zeroProcess _ h]
  rfl

theorem length_update_sleep (st : SchedState) (e : Nat) :
    (process_update_sleep_times st e).process_table.length = st.process_table.length := by
  simp [process_update_sleep_times]

theorem schedule_switch_table (st : SchedState) (idx : Nat) :
    (schedule_switch st idx).process_table =
      st.process_table.set idx { getProc st idx with state := .RUNNING } := by
  simp only [schedule_switch, setProc]
  by_cases hc : st.current_process = some idx
  · rw [if_pos hc]
  · rw [if_neg hc]

theorem getProc_set_ne (st : SchedState) (j : Nat) (p : Process) (i : Nat) (hne : i ≠ j) :
    (st.process_table.set j p).getD i zeroProcess = getProc st i := by
  show _ = st.process_table.getD i zeroProcess
  rw [List.getD_eq_getElem?_getD, List.getD_eq_getElem?_getD,
    List.getElem?_set_ne (by omega)]

theorem schedule_length (st : SchedState) :
    (process_schedule st).process_table.length = st.process_table.length := by
  unfold process_schedule
  split
  · rfl
  · cases hs : scanReadyFrom st.process_table
        ((st.current_process_index + 1) % MAX_PROCESSES) MAX_PROCESSES with
    | some idx => simp [schedule_switch_table]
    | none =>
        simp only
        split
        · rfl
        · cases ha : scanActive st.process_table MAX_PROCESSES with
          | some j => simp [schedule_switch_table]
          | none => rfl

theorem schedule_preserves_sleeping (st : SchedState) (i : Nat)
    (hlen : st.process_table.length = MAX_PROCESSES)
    (hsleep : (getProc (process_schedule st) i).state = .SLEEPING) :
    getProc (process_schedule st) i = getProc st i := by
  have hswitch : ∀ idx, idx < MAX_PROCESSES →
      (getProc (schedule_switch st idx) i).state = .SLEEPING →
      getProc (schedule_switch st idx) i = getProc st i := by
    intro idx hidx hsl
    have htab : getProc (schedule_switch st idx) i =
        (st.process_table.set idx { getProc st idx with state := .RUNNING }).getD i
          zeroProcess := by
      show (schedule_switch st idx).process_table.getD i zeroProcess = _
      rw [schedule_switch_table]
    by_cases hie : i = idx
    · subst hie
      rw [htab, List.getD_eq_getElem _ _ (by rw [List.length_set, hlen]; exact hidx),
        List.getElem_set_self] at hsl
      cases hsl
    · rw [htab, getProc_set_ne st idx _ i hie]
  revert hsleep
  unfold process_schedule
  split
  · intro _; rfl
  · cases hs : scanReadyFrom st.process_table
        ((st.current_process_index + 1) % MAX_PROCESSES) MAX_PROCESSES with
    | some idx =>
        intro hsl
        exact hswitch idx (scanReadyFrom_lt st.process_table _ _ _ hs) hsl
    | none =>
        simp only
        split
        · intro _; rfl
        · cases ha : scanActive st.process_table MAX_PROCESSES with
          | some j =>
              intro hsl
              exact hswitch j
                (scanActive_lt st.process_table MAX_PROCESSES j (by decide) le_rfl ha) hsl
          | none => intro _; rfl

theorem update_fold_ready_aux (es : List Nat) :
    ∀ (st : SchedState) (i : Nat), i < st.process_table.length →
      (getProc st i).state = .READY → (getProc st i).wake_time_ticks = 0 →
      (getProc (es.foldl process_update_sleep_times st) i).state = .READY ∧
      (getProc (es.foldl process_update_sleep_times st) i).wake_time_ticks = 0 := by
  induction es with
  | nil => intro st i _ h1 h2; exact ⟨h1, h2⟩
  | cons e es ih =>
      intro st i hil h1 h2
      rw [List.foldl_cons]
      have hupd : getProc (process_update_sleep_times st e) i = getProc st i := by
        rw [getProc_update_sleep st e i hil, if_neg]
        rintro ⟨-, hsl⟩
        rw [h1] at hsl
        cases hsl
      exact ih (process_update_sleep_times st e) i
        (by rw [length_update_sleep]; exact hil)
        (by rw [hupd]; exact h1) (by rw [hupd]; exact h2)

theorem update_fold_sleeping_aux (es : List Nat) :
    ∀ (st : SchedState) (i Tt : Nat), i < st.process_table.length →
      (getProc st i).pid ≠ 0 → (getProc st i).state = .SLEEPING →
      (getProc st i).wake_time_ticks = Tt →
      ((es.sum < Tt →
        (getProc (es.foldl process_update_sleep_times st) i).state = .SLEEPING ∧
        (getProc (es.foldl process_update_sleep_times st) i).wake_time_ticks = Tt - es.sum)
       ∧ (Tt ≤ es.sum → es ≠ [] →
        (getProc (es.foldl process_update_sleep_times st) i).state = .READY ∧
        (getProc (es.foldl process_update_sleep_times st) i).wake_time_ticks = 0)) := by
  induction es with
  | nil =>
      intro st i Tt _ _ h1 h2
      simp only [List.foldl_nil, List.sum_nil]
      exact ⟨fun _ => ⟨h1, by omega⟩, fun _ h => absurd rfl h⟩
  | cons e es ih =>
      intro st i Tt hil hpid h1 h2
      rw [List.foldl_cons]
      have hupd := getProc_update_sleep st e i hil
      rw [if_pos ⟨hpid, h1⟩] at hupd
      have hil' : i < (process_update_sleep_times st e).process_table.length := by
        rw [length_update_sleep]; exact hil
      by_cases hwake : (getProc st i).wake_time_ticks ≤ e
      · rw [if_pos hwake] at hupd
        have hr := update_fold_ready_aux es (process_update_sleep_times st e) i hil'
          (by rw [hupd]) (by rw [hupd])
        refine ⟨fun hlt => ?_, fun _ _ => hr⟩
        rw [List.sum_cons] at hlt
        omega
      · rw [if_neg hwake] at hupd
        have hih := ih (process_update_sleep_times st e) i (Tt - e) hil'
          (by rw [hupd]; exact hpid)
          (by rw [hupd]; exact h1)
          (by rw [hupd]; show (getProc st i).wake_time_ticks - e = Tt - e; omega)
        rw [List.sum_cons]
        constructor
        · intro hlt
          have h1' := hih.1 (by omega)
          exact ⟨h1'.1, by rw [h1'.2]; omega⟩
        · intro hge _
          rcases List.eq_nil_or_concat es with hnil | -
          · subst hnil
            simp only [List.sum_nil] at hge ⊢
            omega
          · exact hih.2 (by omega) (by
              intro hnil
              rw [hnil] at hge
              simp only [List.sum_nil] at hge
              omega)

/-- The behaviour claim C6 ascribes to a process slot `i` that went to sleep
with `Tt` remaining ticks: over every subsequent sequence `es` of
`process_update_sleep_times` calls it stays SLEEPING with the counter
decremented (floored at zero) while the cumulative elapsed ticks are below
`Tt`, and it is READY with counter zero at and after the first call at which
the cumulative elapsed ticks reach `Tt`. -/
def SleepAccuracyStatement (st0 : SchedState) (i Tt : Nat) : Prop :=
  ∀ es : List Nat,
    (es.sum < Tt →
      (getProc (es.foldl process_update_sleep_times st0) i).state = .SLEEPING ∧
      (getProc (es.foldl process_update_sleep_times st0) i).wake_time_ticks = Tt - es.sum)
    ∧ (Tt ≤ es.sum → es ≠ [] →
      (getProc (es.foldl process_update_sleep_times st0) i).state = .READY ∧
      (getProc (es.foldl process_update_sleep_times st0) i).wake_time_ticks = 0)

/-- C6 (amended): if the process that `process_sleep` put to sleep for `Tt`
ticks is still SLEEPING once `process_sleep` returns (i.e. the scheduler it
invoked did not fall back to re-running it), then it stays SLEEPING with its
counter decremented by each elapsed amount (floored at zero) while the
cumulative elapsed ticks are strictly below `Tt`, and it is READY with
counter zero at and after the first `process_update_sleep_times` call at
which the cumulative elapsed ticks reach `Tt`. -/
theorem sleep_wake_accuracy (st : SchedState) (i Tt : Nat)
    (hlen : st.process_table.length = MAX_PROCESSES)
    (hi : i < MAX_PROCESSES)
    (hcur : st.current_process = some i)
    (hpid : (getProc st i).pid ≠ 0)
    (hstill : (getProc (process_sleep st Tt) i).state = .SLEEPING) :
    SleepAccuracyStatement (process_sleep st Tt) i Tt := by
  have hsleep_eq : process_sleep st Tt =
      process_schedule (setProc st i
        { getProc st i with state := .SLEEPING, wake_time_ticks := Tt }) := by
    unfold process_sleep
    rw [hcur]
  set st1 := setProc st i
    { getProc st i with state := .SLEEPING, wake_time_ticks := Tt } with hst1
  have hlen1 : st1.process_table.length = MAX_PROCESSES := by
    rw [hst1]
    show (st.process_table.set i _).length = _
    rw [List.length_set, hlen]
  have hget1 : getProc st1 i =
      { getProc st i with state := .SLEEPING, wake_time_ticks := Tt } := by
    rw [hst1]
    show (st.process_table.set i _).getD i zeroProcess = _
    rw [List.getD_eq_getElem _ _ (by rw [List.length_set, hlen]; exact hi),
      List.getElem_set_self]
  rw [hsleep_eq] at hstill ⊢
  have hpres := schedule_preserves_sleeping st1 i hlen1 hstill
  intro es
  exact update_fold_sleeping_aux es (process_schedule st1) i Tt
    (by rw [schedule_length, hlen1]; exact hi)
    (by rw [hpres, hget1]; exact hpid)
    (by rw [hpres, hget1])
    (by rw [hpres, hget1])

/-- A scheduler state with a single live process (slot 0, pid 1, RUNNING,
current).  When it calls `process_sleep`, the scheduler finds no READY slot,
the current process is no longer RUNNING, and the fallback re-selects the
just-slept process itself. -/
def sleepCexState : SchedState :=
  { process_table :=
      { pid := 1, state := .RUNNING, wake_time_ticks := 0, priority := 128 } ::
        List.replicate 15 zeroProcess
    process_count_active := 1
    next_pid := 2
    current_process := some 0
    current_process_index := 0
    ctx_switches := [] }

/-- C6 counterexample: the sole live process calls `process_sleep 5`; zero
ticks have elapsed (strictly less than 5), yet the process is not SLEEPING —
`process_schedule`'s fallback marked it RUNNING again — and the following
`process_update_sleep_times 1` call neither decrements its counter nor ever
makes it READY. -/
theorem process_sleep_rerun_cex :
    (getProc (process_sleep sleepCexState 5) 0).state = ProcessState.RUNNING ∧
    ¬ (getProc (process_sleep sleepCexState 5) 0).state = ProcessState.SLEEPING ∧
    (getProc (process_update_sleep_times (process_sleep sleepCexState 5) 1) 0).state
      = ProcessState.RUNNING ∧
    (getProc (process_update_sleep_times (process_sleep sleepCexState 5) 1) 0).wake_time_ticks
      = 5 := by
  decide

/-- A scheduler state with a second READY process, so that after
`process_sleep` the sleeping process genuinely stays SLEEPING. -/
def sleepWitnessState : SchedState :=
  { process_table :=
      { pid := 1, state := .RUNNING, wake_time_ticks := 0, priority := 128 } ::
      { pid := 2, state := .READY, wake_time_ticks := 0, priority := 128 } ::
        List.replicate 14 zeroProcess
    process_count_active := 2
    next_pid := 3
    current_process := some 0
    current_process_index := 0
    ctx_switches := [] }

theorem sleep_wake_accuracy_witness :
    sleepWitnessState.process_table.length = MAX_PROCESSES ∧
    (0 : Nat) < MAX_PROCESSES ∧
    sleepWitnessState.current_process = some 0 ∧
    (getProc sleepWitnessState 0).pid ≠ 0 ∧
    (getProc (process_sleep sleepWitnessState 5) 0).state = ProcessState.SLEEPING ∧
    SleepAccuracyStatement (process_sleep sleepWitnessState 5) 0 5 :=
  ⟨by decide, by decide, by decide, by decide, by decide,
   sleep_wake_accuracy sleepWitnessState 0 5 (by decide) (by decide) (by decide)
     (by decide) (by decide)⟩

/-! ## Keyboard driver and interrupt dispatcher —
src/kernel/drivers/input/keyboard.c, src/kernel/core/interrupt.c -/

def KEYBOARD_MAP_SIZE : Nat := 128
def KEYBOARD_EVENT_CAPACITY : Nat := 64
def INTERRUPT_SIGNAL_CTRL_C : Nat := 0
def INTERRUPT_SIGNAL_MAX : Nat := 1

def KEYBOARD_MOD_SHIFT : Nat := 0x01
def KEYBOARD_MOD_CTRL : Nat := 0x02
def KEYBOARD_MOD_ALTGR : Nat := 0x04
def KEYBOARD_MOD_CAPSLOCK : Nat := 0x08

/-- `struct keyboard_layout_map`: the three 128-entry scancode-to-character
tables of a layout; characters are modelled as byte values 0..255. -/
structure KeyboardLayoutMap where
  normal : List Nat
  shifted : List Nat
  altgr : List Nat
deriving DecidableEq, Repr

/-- The `layout_en_us` scancode tables from keyboard.c, as byte values. -/
def layout_en_us : KeyboardLayoutMap where
  normal := [
    0, 27, 49, 50, 51, 52, 53, 54, 55, 56, 57, 48, 45, 61, 8, 9,
    113, 119, 101, 114, 116, 121, 117, 105, 111, 112, 91, 93, 10, 0, 97, 115,
    100, 102, 103, 104, 106, 107, 108, 59, 39, 96, 0, 92, 122, 120, 99, 118,
    98, 110, 109, 44, 46, 47, 0, 42, 0, 32, 0, 0, 0, 0, 0, 0,
    0, 0, 0, 0, 0, 0, 0, 55, 56, 57, 45, 52, 53, 54, 43, 49,
    50, 51, 48, 46, 0, 0, 0, 0, 0, 0, 0, 0, 0, 0, 0, 0,
    0, 0, 0, 0, 0, 0, 0, 0, 0, 0, 0, 0, 0, 0, 0, 0,
    0, 0, 0, 0, 0, 0, 0, 0, 0, 0, 0, 0, 0, 0, 0, 0]
  shifted := [
    0, 27, 33, 64, 35, 36, 37, 94, 38, 42, 40, 41, 95, 43, 8, 9,
    81, 87, 69, 82, 84, 89, 85, 73, 79, 80, 123, 125, 10, 0, 65, 83,
    68, 70, 71, 72, 74, 75, 76, 58, 34, 126, 0, 124, 90, 88, 67, 86,
    66, 78, 77, 60, 62, 63, 0, 42, 0, 32, 0, 0, 0, 0, 0, 0,
    0, 0, 0, 0, 0, 0, 0, 55, 56, 57, 45, 52, 53, 54, 43, 49,
    50, 51, 48, 46, 0, 0, 0, 0, 0, 0, 0, 0, 0, 0, 0, 0,
    0, 0, 0, 0, 0, 0, 0, 0, 0, 0, 0, 0, 0, 0, 0, 0,
    0, 0, 0, 0, 0, 0, 0, 0, 0, 0, 0, 0, 0, 0, 0, 0]
  altgr := [
    0, 0, 0, 0, 0, 0, 0, 0, 0, 0, 0, 0, 0, 0, 0, 0,
    0, 0, 0, 0, 0, 0, 0, 0, 0, 0, 0, 0, 0, 0, 0, 0,
    0, 0, 0, 0, 0, 0, 0, 0, 0, 0, 0, 0, 0, 0, 0, 0,
    0, 0, 0, 0, 0, 0, 0, 0, 0, 0, 0, 0, 0, 0, 0, 0,
    0, 0, 0, 0, 0, 0, 0, 0, 0, 0, 0, 0, 0, 0, 0, 0,
    0, 0, 0, 0, 0, 0, 0, 0, 0, 0, 0, 0, 0, 0, 0, 0,
    0, 0, 0, 0, 0, 0, 0, 0, 0, 0, 0, 0, 0, 0, 0, 0,
    0, 0, 0, 0, 0, 0, 0, 0, 0, 0, 0, 0, 0, 0, 0, 0]

/-- The `layout_de_de` scancode tables from keyboard.c, as byte values. -/
def layout_de_de : KeyboardLayoutMap where
  normal := [
    0, 27, 49, 50, 51, 52, 53, 54, 55, 56, 57, 48, 223, 180, 8, 9,
    113, 119, 101, 114, 116, 122, 117, 105, 111, 112, 252, 43, 10, 0, 97, 115,
    100, 102, 103, 104, 106, 107, 108, 246, 228, 94, 0, 35, 121, 120, 99, 118,
    98, 110, 109, 44, 46, 45, 0, 42, 0, 32, 0, 0, 0, 0, 0, 0,
    0, 0, 0, 0, 0, 0, 0, 55, 56, 57, 45, 52, 53, 54, 43, 49,
    50, 51, 48, 44, 0, 0, 60, 0, 0, 0, 0, 0, 0, 0, 0, 0,
    0, 0, 0, 0, 0, 0, 0, 0, 0, 0, 0, 0, 0, 0, 0, 0,
    0, 0, 0, 0, 0, 0, 0, 0, 0, 0, 0, 0, 0, 0, 0, 0]
  shifted := [
    0, 27, 33, 34, 167, 36, 37, 38, 47, 40, 41, 61, 63, 96, 8, 9,
    81, 87, 69, 82, 84, 90, 85, 73, 79, 80, 220, 42, 10, 0, 65, 83,
    68, 70, 71, 72, 74, 75, 76, 214, 196, 176, 0, 39, 89, 88, 67, 86,
    66, 78, 77, 59, 58, 95, 0, 42, 0, 32, 0, 0, 0, 0, 0, 0,
    0, 0, 0, 0, 0, 0, 0, 55, 56, 57, 45, 52, 53, 54, 43, 49,
    50, 51, 48, 44, 0, 0, 62, 0, 0, 0, 0, 0, 0, 0, 0, 0,
    0, 0, 0, 0, 0, 0, 0, 0, 0, 0, 0, 0, 0, 0, 0, 0,
    0, 0, 0, 0, 0, 0, 0, 0, 0, 0, 0, 0, 0, 0, 0, 0]
  altgr := [
    0, 0, 0, 178, 179, 0, 0, 0, 123, 91, 93, 125, 92, 0, 0, 0,
    64, 0, 128, 0, 0, 0, 0, 0, 0, 0, 0, 126, 0, 0, 0, 0,
    0, 0, 0, 0, 0, 0, 0, 0, 0, 0, 0, 0, 0, 0, 0, 0,
    0, 0, 181, 0, 0, 0, 0, 0, 0, 0, 0, 0, 0, 0, 0, 0,
    0, 0, 0, 0, 0, 0, 0, 0, 0, 0, 0, 0, 0, 0, 0, 0,
    0, 0, 0, 0, 0, 0, 124, 0, 0, 0, 0, 0, 0, 0, 0, 0,
    0, 0, 0, 0, 0, 0, 0, 0, 0, 0, 0, 0, 0, 0, 0, 0,
    0, 0, 0, 0, 0, 0, 0, 0, 0, 0, 0, 0, 0, 0, 0, 0]

/-- `struct keyboard_event`. -/
structure KeyboardEvent where
  symbol : Nat
  modifiers : Nat
  pressed : Bool
deriving DecidableEq, Repr

instance : Inhabited KeyboardEvent := ⟨{ symbol := 0, modifiers := 0, pressed := false }⟩

/-- The keyboard driver's global mutable state: the active layout pointer,
the modifier latches, the 0xE0 lookahead flag, and the 64-entry circular
event queue.  `raised_signals` logs, in order, every signal delivered via
`interrupt_raise` (the dispatcher's subscribed handlers are external
function pointers; delivering to them is the observable effect). -/
structure KbState where
  current_layout : KeyboardLayoutMap
  left_shift_pressed : Bool
  right_shift_pressed : Bool
  left_ctrl_pressed : Bool
  right_ctrl_pressed : Bool
  caps_lock_active : Bool
  extended_scancode_pending : Bool
  alt_gr_active : Bool
  event_queue : List KeyboardEvent
  event_head : Nat
  event_tail : Nat
  event_count : Nat
  raised_signals : List Nat
deriving DecidableEq, Repr

/-- `interrupt_raise`: out-of-range signals are ignored; otherwise every
matching subscribed handler is invoked, which the model records as a
delivered-signal log entry. -/
def interrupt_raise (st : KbState) (signal : Nat) : KbState :=
  if INTERRUPT_SIGNAL_MAX ≤ signal then st
  else { st with raised_signals := st.raised_signals ++ [signal] }

/-- `is_letter_char` (ASCII letters and the supported umlaut bytes; the
`c >= 'a' && c <= 'z'` comparisons are on signed chars, so bytes ≥ 0x80
never satisfy them). -/
def is_letter_char (c : Nat) : Bool :=
  decide ((97 ≤ c ∧ c ≤ 122) ∨ (65 ≤ c ∧ c ≤ 90) ∨
    c = 0xE4 ∨ c = 0xC4 ∨ c = 0xF6 ∨ c = 0xD6 ∨ c = 0xFC ∨ c = 0xDC)

/-- `translate_scancode`. -/
def translate_scancode (st : KbState) (scancode : Nat) : Nat :=
  if KEYBOARD_MAP_SIZE ≤ scancode then 0
  else
    let normal := st.current_layout.normal.getD scancode 0
    let shifted := st.current_layout.shifted.getD scancode 0
    let altgr := st.current_layout.altgr.getD scancode 0
    let shift_active := st.left_shift_pressed || st.right_shift_pressed
    if st.alt_gr_active && decide (altgr ≠ 0) then altgr
    else
      let use_shifted :=
        if st.caps_lock_active && is_letter_char normal then !shift_active else shift_active
      if use_shifted && decide (shifted ≠ 0) then shifted else normal

def KEYBOARD_KEY_ARROW_UP : Nat := 0x80
def KEYBOARD_KEY_ARROW_DOWN : Nat := 0x81
def KEYBOARD_KEY_ARROW_LEFT : Nat := 0x82
def KEYBOARD_KEY_ARROW_RIGHT : Nat := 0x83
def KEYBOARD_KEY_DELETE : Nat := 0x84
def KEYBOARD_KEY_HOME : Nat := 0x85
def KEYBOARD_KEY_END : Nat := 0x86

/-- `translate_extended_scancode`. -/
def translate_extended_scancode (scancode : Nat) : Nat :=
  if scancode = 0x48 then KEYBOARD_KEY_ARROW_UP
  else if scancode = 0x50 then KEYBOARD_KEY_ARROW_DOWN
  else if scancode = 0x4B then KEYBOARD_KEY_ARROW_LEFT
  else if scancode = 0x4D then KEYBOARD_KEY_ARROW_RIGHT
  else if scancode = 0x53 then KEYBOARD_KEY_DELETE
  else if scancode = 0x47 then KEYBOARD_KEY_HOME
  else if scancode = 0x4F then KEYBOARD_KEY_END
  else 0

/-- `control_modifier_active`. -/
def control_modifier_active (st : KbState) : Bool :=
  st.left_ctrl_pressed || st.right_ctrl_pressed

/-- `is_control_mappable`. -/
def is_control_mappable (c : Nat) : Bool :=
  decide ((97 ≤ c ∧ c ≤ 122) ∨ (65 ≤ c ∧ c ≤ 90))

/-- `apply_control_mapping`. -/
def apply_control_mapping (c : Nat) : Nat :=
  if 97 ≤ c ∧ c ≤ 122 then c - 97 + 1
  else if 65 ≤ c ∧ c ≤ 90 then c - 65 + 1
  else c

/-- `keyboard_current_modifiers`. -/
def keyboard_current_modifiers (st : KbState) : Nat :=
  let m := 0
  let m := if st.left_shift_pressed || st.right_shift_pressed then m ||| KEYBOARD_MOD_SHIFT else m
  let m := if st.left_ctrl_pressed || st.right_ctrl_pressed then m ||| KEYBOARD_MOD_CTRL else m
  let m := if st.alt_gr_active then m ||| KEYBOARD_MOD_ALTGR else m
  let m := if st.caps_lock_active then m ||| KEYBOARD_MOD_CAPSLOCK else m
  m

/-- `keyboard_queue_event`: drop nothing for symbol 0; on a full queue drop
the oldest entry; insert at head; raise Ctrl-C through the dispatcher for
the ETX byte 0x03. -/
def keyboard_queue_event (st : KbState) (symbol : Nat) : KbState :=
  if symbol = 0 then st
  else
    let event : KeyboardEvent :=
      { symbol := symbol, modifiers := keyboard_current_modifiers st, pressed := true }
    let st :=
      if KEYBOARD_EVENT_CAPACITY ≤ st.event_count then
        { st with
            event_tail := (st.event_tail + 1) % KEYBOARD_EVENT_CAPACITY
            event_count := st.event_count - 1 }
      else st
    let st :=
      { st with
          event_queue := st.event_queue.set st.event_head event
          event_head := (st.event_head + 1) % KEYBOARD_EVENT_CAPACITY
          event_count := st.event_count + 1 }
    if symbol = 0x03 then interrupt_raise st INTERRUPT_SIGNAL_CTRL_C else st

/-- `keyboard_dequeue_event` (with a non-NULL out pointer): `none` models the
`false` return on an empty queue. -/
def keyboard_dequeue_event (st : KbState) : Option (KeyboardEvent × KbState) :=
  if st.event_count = 0 then none
  else
    some (st.event_queue.getD st.event_tail default,
      { st with
          event_tail := (st.event_tail + 1) % KEYBOARD_EVENT_CAPACITY
          event_count := st.event_count - 1 })

/-- `keyboard_process_scancode`: the shared make/break state machine.
Returns the updated state and the produced character, if any (the `true`
return plus `*out_char`). -/
def keyboard_process_scancode (st : KbState) (scancode : Nat) (is_extended : Bool) :
    KbState × Option Nat :=
  if scancode.testBit 7 then
    let make_code := scancode &&& 0x7F
    if make_code = 0x2A then ({ st with left_shift_pressed := false }, none)
    else if make_code = 0x36 then ({ st with right_shift_pressed := false }, none)
    else if make_code = 0x38 ∧ is_extended = true then ({ st with alt_gr_active := false }, none)
    else if make_code = 0x1D then
      if is_extended then ({ st with right_ctrl_pressed := false }, none)
      else ({ st with left_ctrl_pressed := false }, none)
    else (st, none)
  else if is_extended then
    if scancode = 0x38 then ({ st with alt_gr_active := true }, none)
    else if scancode = 0x1D then ({ st with right_ctrl_pressed := true }, none)
    else
      let extended := translate_extended_scancode scancode
      if extended ≠ 0 then (keyboard_queue_event st extended, some extended)
      else (st, none)
  else if scancode = 0x2A then ({ st with left_shift_pressed := true }, none)
  else if scancode = 0x36 then ({ st with right_shift_pressed := true }, none)
  else if scancode = 0x1D then ({ st with left_ctrl_pressed := true }, none)
  else if scancode = 0x38 then (st, none)
  else if scancode = 0x3A then ({ st with caps_lock_active := !st.caps_lock_active }, none)
  else
    let translated := translate_scancode st scancode
    if translated = 0 then (st, none)
    else
      let translated :=
        if control_modifier_active st && is_control_mappable translated then
          apply_control_mapping translated
        else translated
      (keyboard_queue_event st translated, some translated)

/-- `keyboard_scan_symbol`: the polling loop.  The PS/2 port is modelled as
the list of scancode bytes it will deliver; an empty list is a clear status
register.  Returns the state, the bytes left in the port, and the produced
character, if any. -/
def keyboard_scan_symbol (st : KbState) : List Nat → KbState × List Nat × Option Nat
  | [] => (st, [], none)
  | scancode :: rest =>
      if scancode = 0xE0 then
        keyboard_scan_symbol { st with extended_scancode_pending := true } rest
      else
        let is_extended := st.extended_scancode_pending
        let st1 :=
          if st.extended_scancode_pending then { st with extended_scancode_pending := false }
          else st
        match keyboard_process_scancode st1 scancode is_extended with
        | (st2, some c) => (st2, rest, some c)
        | (st2, none) => keyboard_scan_symbol st2 rest

/-- `keyboard_process_scancode_irq` (with a non-NULL out pointer). -/
def keyboard_process_scancode_irq (st : KbState) (scancode : Nat) : KbState × Option Nat :=
  if scancode = 0xE0 then ({ st with extended_scancode_pending := true }, none)
  else
    let is_extended := st.extended_scancode_pending
    let st1 :=
      if st.extended_scancode_pending then { st with extended_scancode_pending := false }
      else st
    keyboard_process_scancode st1 scancode is_extended

/-- Feeding a byte sequence one scancode at a time through the IRQ entry
point; returns the final driver state and the produced characters in
order. -/
def irqRun (st : KbState) : List Nat → KbState × List Nat
  | [] => (st, [])
  | b :: bs =>
      match keyboard_process_scancode_irq st b with
      | (st1, oc) =>
          match irqRun st1 bs with
          | (st2, cs) => (st2, oc.toList ++ cs)

/-- Repeatedly calling `keyboard_scan_symbol` until the port is drained
(each successful call consumes at least one byte, so `fuel` bounds the
number of calls); returns the final driver state and all produced
characters in order. -/
def pollDrain : Nat → KbState → List Nat → KbState × List Nat
  | 0, st, _ => (st, [])
  | fuel + 1, st, bs =>
      match keyboard_scan_symbol st bs with
      | (st1, _, none) => (st1, [])
      | (st1, rest, some c) =>
          match pollDrain fuel st1 rest with
          | (st2, cs) => (st2, c :: cs)

/-- The polling acquisition path: call `keyboard_scan_symbol` repeatedly
until it reports no character with the port drained. -/
def pollRun (st : KbState) (bs : List Nat) : KbState × List Nat :=
  pollDrain (bs.length + 1) st bs

/-- One polling-loop iteration behaves exactly like the IRQ entry point on
the head byte. -/
theorem keyboard_scan_symbol_cons (st : KbState) (b : Nat) (bs : List Nat) :
    keyboard_scan_symbol st (b :: bs) =
      match keyboard_process_scancode_irq st b with
      | (st1, some c) => (st1, bs, some c)
      | (st1, none) => keyboard_scan_symbol st1 bs := by
  by_cases hb : b = 0xE0
  · subst hb
    simp [keyboard_scan_symbol, keyboard_process_scancode_irq]
  · simp only [keyboard_scan_symbol, keyboard_process_scancode_irq, if_neg hb]

theorem scan_none_irqRun (bs : List Nat) :
    ∀ (st st' : KbState) (rest : List Nat),
      keyboard_scan_symbol st bs = (st', rest, none) →
      rest = [] ∧ irqRun st bs = (st', []) := by
  induction bs with
  | nil =>
      intro st st' rest h
      cases h
      exact ⟨rfl, rfl⟩
  | cons b bs ih =>
      intro st st' rest h
      rw [keyboard_scan_symbol_cons] at h
      cases hstep : keyboard_process_scancode_irq st b with
      | mk st1 oc =>
          rw [hstep] at h
          cases oc with
          | some c => simp at h
          | none =>
              simp only at h
              obtain ⟨h1, h2⟩ := ih st1 st' rest h
              refine ⟨h1, ?_⟩
              simp [irqRun, hstep, h2]


theorem scan_some_irqRun (bs : List Nat) :
    ∀ (st st' : KbState) (rest : List Nat) (c : Nat),
      keyboard_scan_symbol st bs = (st', rest, some c) →
      rest.length < bs.length ∧
      irqRun st bs =
        (match irqRun st' rest with
         | (st2, cs) => (st2, c :: cs)) := by
  induction bs with
  | nil =>
      intro st st' rest c h
      simp [keyboard_scan_symbol] at h
  | cons b bs ih =>
      intro st st' rest c h
      rw [keyboard_scan_symbol_cons] at h
      cases hstep : keyboard_process_scancode_irq st b with
      | mk st1 oc =>
          rw [hstep] at h
          cases oc with
          | some c1 =>
              cases h
              constructor
              · simp
              · cases hr : irqRun st' bs with
                | mk st2 cs => simp [irqRun, hstep, hr]
          | none =>
              simp only at h
              obtain ⟨hlt, hirq⟩ := ih st1 st' rest c h
              refine ⟨by simp; omega, ?_⟩
              cases hr : irqRun st' rest with
              | mk st2 cs =>
                  simp only [irqRun, hstep, hirq, hr]
                  simp

theorem pollDrain_eq_irqRun : ∀ (n : Nat) (st : KbState) (bs : List Nat),
    bs.length < n → pollDrain n st bs = irqRun st bs := by
  intro n
  induction n with
  | zero => intro st bs h; omega
  | succ n ih =>
      intro st bs h
      simp only [pollDrain]
      cases hscan : keyboard_scan_symbol st bs with
      | mk st1 p =>
          cases p with
          | mk rest oc =>
              cases oc with
              | none =>
                  obtain ⟨hrest, hirq⟩ := scan_none_irqRun bs st st1 rest hscan
                  rw [hirq]
              | some c =>
                  obtain ⟨hlt, hirq⟩ := scan_some_irqRun bs st st1 rest c hscan
                  rw [hirq, ← ih st1 rest (by omega)]

/-- C8: for every driver state and every scancode byte sequence, feeding the
bytes one at a time through the IRQ entry point
`keyboard_process_scancode_irq` yields exactly the same final driver state
(modifier latches, 0xE0 lookahead, event queue, raised Ctrl-C signals) and
the same produced characters, in the same order, as the polling path
`keyboard_scan_symbol` consuming the same bytes from the keyboard port. -/
theorem keyboard_irq_poll_equiv (st : KbState) (bs : List Nat) :
    pollRun st bs = irqRun st bs :=
  pollDrain_eq_irqRun (bs.length + 1) st bs (Nat.lt_succ_self _)

/-- The logical FIFO content of the circular event queue, oldest first. -/
def queueList (st : KbState) : List KeyboardEvent :=
  (List.range st.event_count).map fun k =>
    st.event_queue.getD ((st.event_tail + k) % KEYBOARD_EVENT_CAPACITY) default

/-- Structural well-formedness of the circular event queue: a 64-entry
backing array, at most 64 stored events, an in-range tail, and the head one
past the newest entry. -/
def KbQueueWF (st : KbState) : Prop :=
  st.event_queue.length = KEYBOARD_EVENT_CAPACITY ∧
  st.event_count ≤ KEYBOARD_EVENT_CAPACITY ∧
  st.event_tail < KEYBOARD_EVENT_CAPACITY ∧
  st.event_head = (st.event_tail + st.event_count) % KEYBOARD_EVENT_CAPACITY

instance (st : KbState) : Decidable (KbQueueWF st) := by
  unfold KbQueueWF; infer_instance

theorem getD_set_self_list (l : List KeyboardEvent) (i : Nat) (e : KeyboardEvent)
    (h : i < l.length) : (l.set i e).getD i default = e := by
  rw [List.getD_eq_getElem _ _ (by rw [List.length_set]; exact h), List.getElem_set_self]

theorem getD_set_ne_list (l : List KeyboardEvent) (i j : Nat) (e : KeyboardEvent)
    (h : i ≠ j) : (l.set i e).getD j default = l.getD j default := by
  rw [List.getD_eq_getElem?_getD, List.getD_eq_getElem?_getD, List.getElem?_set_ne h]

/-- Inserting at the head of a non-full well-formed circular queue appends
the event to its logical FIFO content. -/
theorem queueList_insert (st : KbState) (e : KeyboardEvent)
    (hwf : KbQueueWF st) (hlt : st.event_count < KEYBOARD_EVENT_CAPACITY) :
    queueList { st with
        event_queue := st.event_queue.set st.event_head e
        event_head := (st.event_head + 1) % KEYBOARD_EVENT_CAPACITY
        event_count := st.event_count + 1 } = queueList st ++ [e] := by
  obtain ⟨hlen, hcnt, htail, hhead⟩ := hwf
  show (List.range (st.event_count + 1)).map _ = _
  rw [List.range_succ, List.map_append]
  congr 1
  · refine List.map_congr_left fun k hk => ?_
    rw [List.mem_range] at hk
    have hne : (st.event_tail + k) % KEYBOARD_EVENT_CAPACITY ≠ st.event_head := by
      rw [hhead]
      simp only [KEYBOARD_EVENT_CAPACITY] at *
      omega
    exact getD_set_ne_list _ _ _ _ (fun hx => hne hx.symm)
  · simp only [List.map_cons, List.map_nil]
    congr 1
    have hpos : (st.event_tail + st.event_count) % KEYBOARD_EVENT_CAPACITY = st.event_head :=
      hhead.symm
    rw [hpos]
    exact getD_set_self_list _ _ _ (by rw [hlen]; rw [hhead]; exact Nat.mod_lt _ (by decide))

/-- Advancing the tail of a non-empty well-formed circular queue drops the
oldest entry of its logical FIFO content. -/
theorem queueList_drop (st : KbState)
    (hwf : KbQueueWF st) (hpos : 0 < st.event_count) :
    queueList { st with
        event_tail := (st.event_tail + 1) % KEYBOARD_EVENT_CAPACITY
        event_count := st.event_count - 1 } = (queueList st).drop 1 := by
  obtain ⟨hlen, hcnt, htail, hhead⟩ := hwf
  show (List.range (st.event_count - 1)).map _ = _
  have hsplit : st.event_count = (st.event_count - 1) + 1 := by omega
  conv_rhs => rw [queueList, hsplit, List.range_succ_eq_map]
  rw [List.map_cons, List.drop_one, List.map_map]
  refine List.map_congr_left fun k hk => ?_
  simp only [Function.comp]
  congr 1
  simp only [KEYBOARD_EVENT_CAPACITY]
  omega

/-- The behaviour claim C9 ascribes to the event queue of a driver state:
bounded by 64 events (preserved by every enqueue), FIFO enqueue at the back,
oldest-entry drop on overflow, FIFO dequeue at the front, and a Ctrl-C raise
through the dispatcher on enqueueing the ETX byte 0x03. -/
def QueueFifoStatement (st : KbState) : Prop :=
  st.event_count ≤ KEYBOARD_EVENT_CAPACITY ∧
  (∀ s, s ≠ 0 → KbQueueWF (keyboard_queue_event st s)) ∧
  (∀ s, s ≠ 0 → st.event_count = KEYBOARD_EVENT_CAPACITY →
    queueList (keyboard_queue_event st s) =
      (queueList st).drop 1 ++
        [{ symbol := s, modifiers := keyboard_current_modifiers st, pressed := true }] ∧
    (keyboard_queue_event st s).event_count = KEYBOARD_EVENT_CAPACITY) ∧
  (∀ s, s ≠ 0 → st.event_count < KEYBOARD_EVENT_CAPACITY →
    queueList (keyboard_queue_event st s) =
      queueList st ++
        [{ symbol := s, modifiers := keyboard_current_modifiers st, pressed := true }]) ∧
  (∀ s, s = 0x03 →
    (keyboard_queue_event st s).raised_signals =
      st.raised_signals ++ [INTERRUPT_SIGNAL_CTRL_C]) ∧
  (0 < st.event_count →
    keyboard_dequeue_event st =
      some ((queueList st).getD 0 default,
        { st with
            event_tail := (st.event_tail + 1) % KEYBOARD_EVENT_CAPACITY
            event_count := st.event_count - 1 }) ∧
    queueList { st with
        event_tail := (st.event_tail + 1) % KEYBOARD_EVENT_CAPACITY
        event_count := st.event_count - 1 } = (queueList st).drop 1)

theorem queue_event_not_full (st : KbState) (s : Nat) (hs : ¬ s = 0)
    (hnf : ¬ KEYBOARD_EVENT_CAPACITY ≤ st.event_count) :
    keyboard_queue_event st s =
      (if s = 3 then
        { st with
            event_queue := st.event_queue.set st.event_head
              { symbol := s, modifiers := keyboard_current_modifiers st, pressed := true }
            event_head := (st.event_head + 1) % KEYBOARD_EVENT_CAPACITY
            event_count := st.event_count + 1
            raised_signals := st.raised_signals ++ [INTERRUPT_SIGNAL_CTRL_C] }
       else
        { st with
            event_queue := st.event_queue.set st.event_head
              { symbol := s, modifiers := keyboard_current_modifiers st, pressed := true }
            event_head := (st.event_head + 1) % KEYBOARD_EVENT_CAPACITY
            event_count := st.event_count + 1 }) := by
  simp only [keyboard_queue_event, interrupt_raise]
  rw [if_neg hs, if_neg hnf]
  by_cases h3 : s = 3
  · rw [if_pos h3, if_pos h3, if_neg (by decide : ¬ INTERRUPT_SIGNAL_MAX ≤ INTERRUPT_SIGNAL_CTRL_C)]
  · rw [if_neg h3, if_neg h3]

theorem queue_event_full_drop (st : KbState) (s : Nat) (hs : ¬ s = 0)
    (hf : KEYBOARD_EVENT_CAPACITY ≤ st.event_count)
    (hle : st.event_count ≤ KEYBOARD_EVENT_CAPACITY) :
    keyboard_queue_event st s =
      keyboard_queue_event
        { st with
            event_tail := (st.event_tail + 1) % KEYBOARD_EVENT_CAPACITY
            event_count := st.event_count - 1 } s := by
  conv_rhs => rw [queue_event_not_full _ s hs
    (by simp only [KEYBOARD_EVENT_CAPACITY] at *; omega)]
  simp only [keyboard_queue_event, interrupt_raise]
  rw [if_neg hs, if_pos hf]
  by_cases h3 : s = 3
  · rw [if_pos h3, if_pos h3,
      if_neg (by decide : ¬ INTERRUPT_SIGNAL_MAX ≤ INTERRUPT_SIGNAL_CTRL_C)]
    rfl
  · rw [if_neg h3, if_neg h3]
    rfl

/-- C9: the keyboard event queue holds at most 64 events (an invariant every
enqueue preserves) and is FIFO: enqueueing a non-zero symbol appends an
event carrying the current modifiers at the back, on a full queue exactly
the oldest event is dropped and the newest 64 are kept, dequeueing returns
the oldest event and removes it from the front, and enqueueing the ASCII
ETX byte 0x03 additionally raises the Ctrl-C signal through the
dispatcher. -/
theorem keyboard_queue_fifo (st : KbState) (hwf : KbQueueWF st) :
    QueueFifoStatement st := by
  have hwf' := hwf
  obtain ⟨hlen, hcnt, htail, hhead⟩ := hwf'
  have hmkwf : ∀ s, ¬ s = 0 → ¬ KEYBOARD_EVENT_CAPACITY ≤ st.event_count →
      KbQueueWF (keyboard_queue_event st s) := by
    intro s hs hnf
    rw [queue_event_not_full st s hs hnf]
    have hbody : KbQueueWF { st with
        event_queue := st.event_queue.set st.event_head
          { symbol := s, modifiers := keyboard_current_modifiers st, pressed := true }
        event_head := (st.event_head + 1) % KEYBOARD_EVENT_CAPACITY
        event_count := st.event_count + 1 } := by
      refine ⟨?_, ?_, ?_, ?_⟩
      · show (st.event_queue.set _ _).length = _
        rw [List.length_set]; exact hlen
      · show st.event_count + 1 ≤ KEYBOARD_EVENT_CAPACITY
        simp only [KEYBOARD_EVENT_CAPACITY] at *; omega
      · exact htail
      · show (st.event_head + 1) % KEYBOARD_EVENT_CAPACITY =
          (st.event_tail + (st.event_count + 1)) % KEYBOARD_EVENT_CAPACITY
        rw [hhead]
        simp only [KEYBOARD_EVENT_CAPACITY]
        omega
    by_cases h3 : s = 3
    · rw [if_pos h3]
      exact hbody
    · rw [if_neg h3]
      exact hbody
  have hdropwf : 0 < st.event_count → KbQueueWF { st with
      event_tail := (st.event_tail + 1) % KEYBOARD_EVENT_CAPACITY
      event_count := st.event_count - 1 } := by
    intro hpos
    refine ⟨hlen, ?_, Nat.mod_lt _ (by decide), ?_⟩
    · show st.event_count - 1 ≤ KEYBOARD_EVENT_CAPACITY
      omega
    show st.event_head = ((st.event_tail + 1) % KEYBOARD_EVENT_CAPACITY +
      (st.event_count - 1)) % KEYBOARD_EVENT_CAPACITY
    rw [hhead]
    simp only [KEYBOARD_EVENT_CAPACITY]
    omega
  refine ⟨hcnt, ?_, ?_, ?_, ?_, ?_⟩
  · -- every enqueue of a non-zero symbol preserves well-formedness
    intro s hs
    by_cases hfull : KEYBOARD_EVENT_CAPACITY ≤ st.event_count
    · rw [queue_event_full_drop st s hs hfull hcnt]
      have hpos : 0 < st.event_count := by
        simp only [KEYBOARD_EVENT_CAPACITY] at hfull; omega
      obtain ⟨hl2, hc2, ht2, hh2⟩ := hdropwf hpos
      rw [queue_event_not_full _ s hs (by
        show ¬ KEYBOARD_EVENT_CAPACITY ≤ st.event_count - 1
        simp only [KEYBOARD_EVENT_CAPACITY] at *; omega)]
      have hbody : KbQueueWF { st with
          event_tail := (st.event_tail + 1) % KEYBOARD_EVENT_CAPACITY
          event_queue := st.event_queue.set st.event_head
            { symbol := s, modifiers := keyboard_current_modifiers st, pressed := true }
          event_head := (st.event_head + 1) % KEYBOARD_EVENT_CAPACITY
          event_count := st.event_count - 1 + 1 } := by
        refine ⟨?_, ?_, ?_, ?_⟩
        · show (st.event_queue.set _ _).length = _
          rw [List.length_set]; exact hlen
        · show st.event_count - 1 + 1 ≤ KEYBOARD_EVENT_CAPACITY
          simp only [KEYBOARD_EVENT_CAPACITY] at *; omega
        · exact Nat.mod_lt _ (by decide)
        · show (st.event_head + 1) % KEYBOARD_EVENT_CAPACITY =
            ((st.event_tail + 1) % KEYBOARD_EVENT_CAPACITY + (st.event_count - 1 + 1)) %
              KEYBOARD_EVENT_CAPACITY
          rw [hhead]
          simp only [KEYBOARD_EVENT_CAPACITY] at *
          omega
      by_cases h3 : s = 3
      · rw [if_pos h3]; exact hbody
      · rw [if_neg h3]; exact hbody
    · exact hmkwf s hs hfull
  · -- full queue: the oldest event is dropped, the new event appended
    intro s hs hfull
    have hpos : 0 < st.event_count := by
      simp only [KEYBOARD_EVENT_CAPACITY] at hfull ⊢; omega
    have hwfd := hdropwf hpos
    constructor
    · rw [queue_event_full_drop st s hs (le_of_eq hfull.symm) hcnt,
        queue_event_not_full _ s hs (by
          show ¬ KEYBOARD_EVENT_CAPACITY ≤ st.event_count - 1
          simp only [KEYBOARD_EVENT_CAPACITY] at *; omega)]
      have hins := queueList_insert
        { st with
            event_tail := (st.event_tail + 1) % KEYBOARD_EVENT_CAPACITY
            event_count := st.event_count - 1 }
        { symbol := s, modifiers := keyboard_current_modifiers st, pressed := true }
        hwfd (by simp only [KEYBOARD_EVENT_CAPACITY] at *; omega)
      rw [queueList_drop st hwf hpos] at hins
      by_cases h3 : s = 3
      · rw [if_pos h3]; exact hins
      · rw [if_neg h3]; exact hins
    · rw [queue_event_full_drop st s hs (le_of_eq hfull.symm) hcnt,
        queue_event_not_full _ s hs (by
          show ¬ KEYBOARD_EVENT_CAPACITY ≤ st.event_count - 1
          simp only [KEYBOARD_EVENT_CAPACITY] at *; omega)]
      by_cases h3 : s = 3
      · rw [if_pos h3]
        show st.event_count - 1 + 1 = KEYBOARD_EVENT_CAPACITY
        omega
      · rw [if_neg h3]
        show st.event_count - 1 + 1 = KEYBOARD_EVENT_CAPACITY
        omega
  · -- non-full queue: plain FIFO append
    intro s hs hlt
    rw [queue_event_not_full st s hs (by omega)]
    have hins := queueList_insert st
      { symbol := s, modifiers := keyboard_current_modifiers st, pressed := true } hwf hlt
    by_cases h3 : s = 3
    · rw [if_pos h3]; exact hins
    · rw [if_neg h3]; exact hins
  · -- ETX raises Ctrl-C through the dispatcher
    intro s h3
    by_cases hfull : KEYBOARD_EVENT_CAPACITY ≤ st.event_count
    · simp only [keyboard_queue_event, interrupt_raise]
      rw [if_neg (show ¬ s = 0 by omega), if_pos hfull, if_pos h3,
        if_neg (by decide : ¬ INTERRUPT_SIGNAL_MAX ≤ INTERRUPT_SIGNAL_CTRL_C)]
    · simp only [keyboard_queue_event, interrupt_raise]
      rw [if_neg (show ¬ s = 0 by omega), if_neg hfull, if_pos h3,
        if_neg (by decide : ¬ INTERRUPT_SIGNAL_MAX ≤ INTERRUPT_SIGNAL_CTRL_C)]
  · -- dequeue returns the oldest entry and drops it
    intro hpos
    constructor
    · unfold keyboard_dequeue_event
      rw [if_neg (by omega)]
      congr 2
      show st.event_queue.getD st.event_tail default = (queueList st).getD 0 default
      have : st.event_count = (st.event_count - 1) + 1 := by omega
      rw [queueList, this, List.range_succ_eq_map, List.map_cons]
      show st.event_queue.getD st.event_tail default =
        st.event_queue.getD ((st.event_tail + 0) % KEYBOARD_EVENT_CAPACITY) default
      congr 1
      simp only [KEYBOARD_EVENT_CAPACITY] at htail ⊢
      omega
    · exact queueList_drop st hwf hpos

/-- A driver state whose event queue is full (64 identical events), used to
witness the hypothesis of `keyboard_queue_fifo` at the drop-oldest case. -/
def kbWitnessState : KbState :=
  { current_layout := layout_de_de
    left_shift_pressed := false
    right_shift_pressed := false
    left_ctrl_pressed := false
    right_ctrl_pressed := false
    caps_lock_active := false
    extended_scancode_pending := false
    alt_gr_active := false
    event_queue := List.replicate 64 default
    event_head := 0
    event_tail := 0
    event_count := 64
    raised_signals := [] }

theorem keyboard_queue_fifo_witness :
    KbQueueWF kbWitnessState ∧ QueueFifoStatement kbWitnessState :=
  ⟨by decide, keyboard_queue_fifo kbWitnessState (by decide)⟩

/-! ## LUXFS filesystem — src/kernel/fs/fs.c

The ATA device (an external collaborator, polling PIO with no failure
injection in these claims) is modelled as a reliable store: sector reads and
writes succeed whenever the sector index is in range, which is exactly the
`disk_read_data_block` / `disk_write_data_block` range guards.  Sectors
holding structured metadata (superblock, bitmaps, inode table) are modelled
at the granularity the code writes them: whole-sector images of the
in-memory structures.  Byte arrays are modelled as functions from index to
byte value. -/

def ATA_SECTOR_SIZE : Nat := 512
def LUXFS_TOTAL_SECTORS : Nat := 4096
def LUXFS_MAX_INODES : Nat := 128
def LUXFS_DIRECT_BLOCKS : Nat := 8
def LUXFS_MAX_PATH_DEPTH : Nat := 8
def LUXFS_INVALID_BLOCK : Nat := 0xFFFFFFFF
def FS_NAME_MAX : Nat := 32

def LUXFS_NODE_FREE : Nat := 0
def LUXFS_NODE_DIR : Nat := 1
def LUXFS_NODE_FILE : Nat := 2

/-- `sizeof(struct luxfs_inode)`: 1 + 1 + 2 + 4 + 4 + 8·4 + 4·4 bytes. -/
def LUXFS_INODE_SIZE_BYTES : Nat := 60
def LUXFS_INODES_PER_BLOCK : Nat := ATA_SECTOR_SIZE / LUXFS_INODE_SIZE_BYTES
def LUXFS_INODE_TABLE_START : Nat := 3
def LUXFS_INODE_TABLE_BLOCKS : Nat :=
  (LUXFS_MAX_INODES + LUXFS_INODES_PER_BLOCK - 1) / LUXFS_INODES_PER_BLOCK
def LUXFS_DATA_BLOCK_START : Nat := LUXFS_INODE_TABLE_START + LUXFS_INODE_TABLE_BLOCKS
def LUXFS_DATA_BLOCK_COUNT : Nat := LUXFS_TOTAL_SECTORS - LUXFS_DATA_BLOCK_START

/-- `struct luxfs_inode` (the reserved padding fields carry no meaning).
`direct` maps slot 0..7 to a data-block pointer. -/
structure LuxfsInode where
  type : Nat
  size : Nat
  parent : Nat
  direct : Nat → Nat

/-- In-memory filesystem state `g_fs` plus the on-disk image the flush
helpers maintain.  `root_inode` is `g_fs.super.root_inode`; the remaining
superblock geometry fields are compile-time constants above.  `disk_data`
maps a data-region block index to its 512 byte values. -/
structure LuxfsState where
  mounted : Bool
  root_inode : Nat
  inodes : Nat → LuxfsInode
  inode_bitmap : Nat → Nat
  block_bitmap : Nat → Nat
  disk_data : Nat → Nat → Nat
  disk_inodes : Nat → LuxfsInode
  disk_inode_bitmap : Nat → Nat
  disk_block_bitmap : Nat → Nat

def zeroBlock : Nat → Nat := fun _ => 0

/-- `bitmap_test`. -/
def bitmap_test (bm : Nat → Nat) (index : Nat) : Bool :=
  decide ((bm (index / 8) >>> (index % 8)) &&& 1 = 1)

/-- `bitmap_set` (byte values stay below 256 exactly as `uint8_t` does). -/
def bitmap_set (bm : Nat → Nat) (index : Nat) (value : Bool) : Nat → Nat :=
  if value then
    Function.update bm (index / 8) (bm (index / 8) ||| (1 <<< (index % 8)))
  else
    Function.update bm (index / 8) (bm (index / 8) &&& (0xFF ^^^ (1 <<< (index % 8))))

theorem bitmap_test_eq_testBit (bm : Nat → Nat) (index : Nat) :
    bitmap_test bm index = (bm (index / 8)).testBit (index % 8) := by
  unfold bitmap_test
  have h : (bm (index / 8) >>> (index % 8)) &&& 1 = 1 ↔
      (bm (index / 8)).testBit (index % 8) = true := by
    rw [Nat.and_one_is_mod, Nat.testBit_to_div_mod]
    rw [Nat.shiftRight_eq_div_pow]
    simp
  rcases Bool.eq_false_or_eq_true ((bm (index / 8)).testBit (index % 8)) with hb | hb <;>
    rw [hb] <;> simp [hb] at h ⊢ <;> simp [h]

theorem bitmap_test_set_self (bm : Nat → Nat) (index : Nat) (v : Bool) :
    bitmap_test (bitmap_set bm index v) index = v := by
  cases v with
  | true =>
      unfold bitmap_set
      rw [if_pos rfl, bitmap_test_eq_testBit, Function.update_same]
      rw [Nat.testBit_or, Nat.one_shiftLeft, Nat.testBit_two_pow]
      simp
  | false =>
      unfold bitmap_set
      rw [if_neg (by simp), bitmap_test_eq_testBit, Function.update_same]
      rw [Nat.testBit_and, Nat.testBit_xor, Nat.one_shiftLeft, Nat.testBit_two_pow]
      have h8 : index % 8 < 8 := Nat.mod_lt _ (by omega)
      rw [show (0xFF : Nat) = 2 ^ 8 - 1 from rfl, Nat.testBit_two_pow_sub_one]
      simp [h8]

theorem bitmap_test_set_ne (bm : Nat → Nat) (index index' : Nat) (v : Bool)
    (h : index' ≠ index) :
    bitmap_test (bitmap_set bm index v) index' = bitmap_test bm index' := by
  rw [bitmap_test_eq_testBit, bitmap_test_eq_testBit]
  by_cases hbyte : index' / 8 = index / 8
  · have hbit : index' % 8 ≠ index % 8 := by omega
    cases v with
    | true =>
        unfold bitmap_set
        rw [if_pos rfl, hbyte, Function.update_same]
        rw [Nat.testBit_or, Nat.one_shiftLeft, Nat.testBit_two_pow]
        rw [decide_eq_false (fun hh => hbit hh.symm)]
        simp
    | false =>
        unfold bitmap_set
        rw [if_neg (by simp), hbyte, Function.update_same]
        rw [Nat.testBit_and, Nat.testBit_xor, Nat.one_shiftLeft, Nat.testBit_two_pow]
        have h8 : index' % 8 < 8 := Nat.mod_lt _ (by omega)
        rw [show (0xFF : Nat) = 2 ^ 8 - 1 from rfl, Nat.testBit_two_pow_sub_one]
        rw [decide_eq_true h8, decide_eq_false (fun hh => hbit hh.symm)]
        simp
  · unfold bitmap_set
    cases v with
    | true => rw [if_pos rfl, Function.update_noteq hbyte _ _]
    | false => rw [if_neg (by simp), Function.update_noteq hbyte _ _]

/-- `disk_read_data_block`: fails exactly when the index leaves the data
region. -/
def disk_read_data_block (st : LuxfsState) (index : Nat) : Option (Nat → Nat) :=
  if LUXFS_DATA_BLOCK_COUNT ≤ index then none
  else some (st.disk_data index)

/-- `disk_write_data_block`. -/
def disk_write_data_block (st : LuxfsState) (index : Nat) (b : Nat → Nat) :
    Option LuxfsState :=
  if LUXFS_DATA_BLOCK_COUNT ≤ index then none
  else some { st with disk_data := Function.update st.disk_data index b }

/-- `luxfs_flush_inode_bitmap`. -/
def luxfs_flush_inode_bitmap (st : LuxfsState) : LuxfsState :=
  { st with disk_inode_bitmap := st.inode_bitmap }

/-- `luxfs_flush_block_bitmap`. -/
def luxfs_flush_block_bitmap (st : LuxfsState) : LuxfsState :=
  { st with disk_block_bitmap := st.block_bitmap }

/-- `luxfs_flush_inode` composed with `luxfs_flush_inode_block`: writes the
whole inode-table sector containing `inode_index` (8 inodes) to disk. -/
def luxfs_flush_inode (st : LuxfsState) (inode_index : Nat) : Option LuxfsState :=
  if LUXFS_MAX_INODES ≤ inode_index then none
  else
    let start := (inode_index / LUXFS_INODES_PER_BLOCK) * LUXFS_INODES_PER_BLOCK
    some { st with disk_inodes := fun j =>
      if start ≤ j ∧ j < start + LUXFS_INODES_PER_BLOCK then st.inodes j
      else st.disk_inodes j }

/-- The first-fit scan of `luxfs_alloc_block`: with `k` indices left to try,
the next candidate is `LUXFS_DATA_BLOCK_COUNT - k`. -/
def scanFreeBlock (bm : Nat → Nat) : Nat → Option Nat
  | 0 => none
  | k + 1 =>
      let i := LUXFS_DATA_BLOCK_COUNT - (k + 1)
      if bitmap_test bm i then scanFreeBlock bm k else some i

/-- `luxfs_alloc_block`: first-fit scan, mark, flush the bitmap sector. -/
def luxfs_alloc_block (st : LuxfsState) : Option (LuxfsState × Nat) :=
  match scanFreeBlock st.block_bitmap LUXFS_DATA_BLOCK_COUNT with
  | none => none
  | some i =>
      some (luxfs_flush_block_bitmap
        { st with block_bitmap := bitmap_set st.block_bitmap i true }, i)

/-- `luxfs_free_block`. -/
def luxfs_free_block (st : LuxfsState) (index : Nat) : Option LuxfsState :=
  if LUXFS_DATA_BLOCK_COUNT ≤ index then none
  else if ¬ bitmap_test st.block_bitmap index then some st
  else some (luxfs_flush_block_bitmap
    { st with block_bitmap := bitmap_set st.block_bitmap index false })

/-- The slot loop of `luxfs_release_inode_blocks`: with `k` slots left, the
next slot is `LUXFS_DIRECT_BLOCKS - k`; a failed `luxfs_free_block` clears
`ok` but the direct pointer is invalidated regardless. -/
def luxfs_release_loop : Nat → LuxfsState → Nat → Bool → LuxfsState × Bool
  | 0, st, _, ok => (st, ok)
  | k + 1, st, i, ok =>
      let b := LUXFS_DIRECT_BLOCKS - (k + 1)
      if (st.inodes i).direct b ≠ LUXFS_INVALID_BLOCK then
        let step :=
          match luxfs_free_block st ((st.inodes i).direct b) with
          | some st' => (st', ok)
          | none => (st, false)
        let ino2 := { step.1.inodes i with
          direct := Function.update (step.1.inodes i).direct b LUXFS_INVALID_BLOCK }
        let st2 := { step.1 with inodes := Function.update step.1.inodes i ino2 }
        luxfs_release_loop k st2 i step.2
      else luxfs_release_loop k st i ok

/-- `luxfs_release_inode_blocks` on the inode at table slot `i` (the C
function takes `&g_fs.inodes[i]`): free every allocated direct block,
invalidate all direct pointers, and zero the size. -/
def luxfs_release_inode_blocks (st : LuxfsState) (i : Nat) : LuxfsState × Bool :=
  let r := luxfs_release_loop LUXFS_DIRECT_BLOCKS st i true
  ({ r.1 with inodes := Function.update r.1.inodes i { r.1.inodes i with size := 0 } }, r.2)

/-- `struct luxfs_dir_record` after deserialisation: a little-endian
`uint32_t` inode index followed by `FS_NAME_MAX` raw name bytes. -/
structure DirRecord where
  inode : Nat
  name : List Nat
deriving DecidableEq, Repr

def DIR_RECORD_SIZE : Nat := 4 + FS_NAME_MAX

def decodeDirRecord (bytes : List Nat) : DirRecord :=
  { inode := bytes.getD 0 0 + 256 * bytes.getD 1 0 + 65536 * bytes.getD 2 0 +
      16777216 * bytes.getD 3 0
    name := (bytes.drop 4).take FS_NAME_MAX }

/-- The record-assembly inner loop of `luxfs_dir_iterate`, consuming the
bytes of one chunk one at a time into the partial-record buffer, invoking
the callback on each completed record.  Returns `none` in the first
component when the callback stopped the iteration, otherwise the carried
partial-record buffer. -/
def consumeRecBytes {σ : Type} (cb : DirRecord → σ → Bool × σ) :
    List Nat → List Nat → σ → Option (List Nat) × σ
  | [], recbuf, ctx => (some recbuf, ctx)
  | b :: rest, recbuf, ctx =>
      if (recbuf ++ [b]).length = DIR_RECORD_SIZE then
        match cb (decodeDirRecord (recbuf ++ [b])) ctx with
        | (true, ctx') => consumeRecBytes cb rest [] ctx'
        | (false, ctx') => (none, ctx')
      else consumeRecBytes cb rest (recbuf ++ [b]) ctx

/-- The sector loop of `luxfs_dir_iterate`: `remaining` bytes of the
directory stream are left, the next byte lives at stream offset `offset`.
Returns the C function's boolean result and the final callback context. -/
def dirIterLoop {σ : Type} (st : LuxfsState) (cb : DirRecord → σ → Bool × σ)
    (dir : LuxfsInode) (offset remaining : Nat) (recbuf : List Nat) (ctx : σ) :
    Bool × σ :=
  if h0 : remaining = 0 then (decide (recbuf = []), ctx)
  else
    let block_idx := offset / ATA_SECTOR_SIZE
    let block_offset := offset % ATA_SECTOR_SIZE
    if LUXFS_DIRECT_BLOCKS ≤ block_idx then (false, ctx)
    else if dir.direct block_idx = LUXFS_INVALID_BLOCK then (false, ctx)
    else
      match disk_read_data_block st (dir.direct block_idx) with
      | none => (false, ctx)
      | some blk =>
          let chunk := min (ATA_SECTOR_SIZE - block_offset) remaining
          let bytes := (List.range chunk).map fun k => blk (block_offset + k)
          match consumeRecBytes cb bytes recbuf ctx with
          | (none, ctx') => (true, ctx')
          | (some recbuf', ctx') =>
              dirIterLoop st cb dir (offset + chunk) (remaining - chunk) recbuf' ctx'
  termination_by remaining
  decreasing_by
    have hb : offset % ATA_SECTOR_SIZE < ATA_SECTOR_SIZE :=
      Nat.mod_lt _ (by simp [ATA_SECTOR_SIZE])
    simp only [ATA_SECTOR_SIZE] at *
    omega

/-- `luxfs_dir_iterate`. -/
def luxfs_dir_iterate {σ : Type} (st : LuxfsState) (dir_index : Nat)
    (cb : DirRecord → σ → Bool × σ) (ctx : σ) : Bool × σ :=
  if LUXFS_MAX_INODES ≤ dir_index then (false, ctx)
  else if (st.inodes dir_index).type ≠ LUXFS_NODE_DIR then (false, ctx)
  else dirIterLoop st cb (st.inodes dir_index) 0 (st.inodes dir_index).size [] ctx

/-- The bytes of a stored name up to its terminating NUL (`strcmp`
semantics on the record's fixed-width name field). -/
def cstr (bytes : List Nat) : List Nat := bytes.takeWhile (· ≠ 0)

/-- `luxfs_dir_find` composed with `luxfs_dir_find_cb`: `some child` when a
record whose name equals `name` was found.  The context carries
`ctx.found`/`*ctx.result` as an `Option`. -/
def luxfs_dir_find (st : LuxfsState) (dir_index : Nat) (name : List Nat) : Option Nat :=
  let r := luxfs_dir_iterate st dir_index
    (fun record ctx =>
      if cstr record.name = name then (false, some record.inode) else (true, ctx))
    (none : Option Nat)
  if r.1 = false then none else r.2

theorem length_dropWhile_le {α : Type} (q : α → Bool) (p : List α) :
    (p.dropWhile q).length ≤ p.length := by
  induction p with
  | nil => simp
  | cons a t ih =>
      rw [List.dropWhile_cons]
      split
      · exact Nat.le_trans ih (by simp)
      · simp

theorem dropWhile_head_not {α : Type} (q : α → Bool) (p : List α) (c : α) (t : List α)
    (h : p.dropWhile q = c :: t) : ¬ q c = true := by
  induction p with
  | nil => simp [List.dropWhile] at h
  | cons a p ih =>
      rw [List.dropWhile_cons] at h
      by_cases hq : q a = true
      · rw [if_pos hq] at h
        exact ih h
      · rw [if_neg hq] at h
        injection h with h1 _
        rw [← h1]
        exact hq

theorem tokenize_rest_lt (p : List Nat) (h1 : p.dropWhile (· == 47) ≠ []) :
    ((p.dropWhile (· == 47)).dropWhile (· ≠ 47)).length < p.length := by
  rcases hp1 : p.dropWhile (· == 47) with - | ⟨c, t⟩
  · exact absurd hp1 h1
  · have hc : ¬ ((c : Nat) == 47) = true := dropWhile_head_not _ p c t hp1
    have hcd : (decide (c ≠ 47)) = true := by
      simp only [beq_iff_eq] at hc
      simpa using hc
    rw [List.dropWhile_cons, if_pos hcd]
    have h2 : (t.dropWhile (· ≠ 47)).length ≤ t.length := length_dropWhile_le _ t
    have h3 : (c :: t).length ≤ p.length := by
      rw [← hp1]
      exact length_dropWhile_le _ p
    simp only [List.length_cons] at h3
    omega

/-- `luxfs_tokenize_path`: split on `/`, drop empty and `.` components,
fail beyond `LUXFS_MAX_PATH_DEPTH` components or on a component of
`FS_NAME_MAX` or more characters.  The path is the byte list of the C
string (no NUL bytes). -/
def luxfs_tokenize_path (path : List Nat) : Option (List (List Nat)) :=
  tokenizeLoop path 0
where
  tokenizeLoop (p : List Nat) (depth : Nat) : Option (List (List Nat)) :=
    let p1 := p.dropWhile (· == 47)
    if h1 : p1 = [] then some []
    else if LUXFS_MAX_PATH_DEPTH ≤ depth then none
    else
      let name := p1.takeWhile (· ≠ 47)
      let rest := p1.dropWhile (· ≠ 47)
      if FS_NAME_MAX ≤ name.length then none
      else if name = [46] then tokenizeLoop rest depth
      else (tokenizeLoop rest (depth + 1)).map fun l => name :: l
  termination_by p.length
  decreasing_by
    all_goals exact tokenize_rest_lt p h1

/-- The component walk of `luxfs_resolve`: `..` moves to the stored parent,
anything else is looked up in the current directory. -/
def resolveLoop (st : LuxfsState) : List (List Nat) → Nat → Option Nat
  | [], current => some current
  | comp :: rest, current =>
      if comp = [46, 46] then resolveLoop st rest (st.inodes current).parent
      else
        match luxfs_dir_find st current comp with
        | none => none
        | some child => resolveLoop st rest child

/-- `luxfs_resolve`. -/
def luxfs_resolve (st : LuxfsState) (path : List Nat) : Option Nat :=
  match luxfs_tokenize_path path with
  | none => none
  | some comps => resolveLoop st comps st.root_inode

/-- `fs_ready`. -/
def fs_ready (st : LuxfsState) : Bool := st.mounted

/-- The copy loop of `fs_read`: read `remaining` bytes starting at file
offset `offset`.  A direct slot past the 8-slot array or an unallocated
pointer stops the copy (`break`), yielding the bytes gathered so far; a
failing device read aborts the call (`none`). -/
def fs_read_loop (st : LuxfsState) (ino : LuxfsInode) (offset remaining : Nat) :
    Option (List Nat) :=
  if h0 : remaining = 0 then some []
  else
    let block_idx := offset / ATA_SECTOR_SIZE
    let block_offset := offset % ATA_SECTOR_SIZE
    if LUXFS_DIRECT_BLOCKS ≤ block_idx then some []
    else if ino.direct block_idx = LUXFS_INVALID_BLOCK then some []
    else
      match disk_read_data_block st (ino.direct block_idx) with
      | none => none
      | some blk =>
          let chunk := min (ATA_SECTOR_SIZE - block_offset) remaining
          match fs_read_loop st ino (offset + chunk) (remaining - chunk) with
          | none => none
          | some bs =>
              some (((List.range chunk).map fun k => blk (block_offset + k)) ++ bs)
  termination_by remaining
  decreasing_by
    have hb : offset % ATA_SECTOR_SIZE < ATA_SECTOR_SIZE :=
      Nat.mod_lt _ (by simp [ATA_SECTOR_SIZE])
    simp only [ATA_SECTOR_SIZE] at *
    omega

/-- `fs_read` (with non-NULL path and buffer): `some (bytes_read, bytes)` on
a `true` return, where `bytes` are the bytes copied into the caller's
buffer; `none` on a `false` return. -/
def fs_read (st : LuxfsState) (path : List Nat) (offset length : Nat) :
    Option (Nat × List Nat) :=
  if ¬ fs_ready st then none
  else
    match luxfs_resolve st path with
    | none => none
    | some inode_index =>
        if (st.inodes inode_index).type ≠ LUXFS_NODE_FILE then none
        else if (st.inodes inode_index).size ≤ offset then some (0, [])
        else
          let remaining := min ((st.inodes inode_index).size - offset) length
          match fs_read_loop st (st.inodes inode_index) offset remaining with
          | none => none
          | some bs => some (bs.length, bs)

/-- The prepare-block step of one `fs_write` loop iteration: allocate a
fresh zero-filled block if the direct slot is unallocated, otherwise read
the existing block from disk.  Returns the (possibly) updated state and the
initial contents of the block buffer. -/
def fs_write_step (st : LuxfsState) (inode_index block_idx : Nat) :
    Option (LuxfsState × (Nat → Nat)) :=
  if (st.inodes inode_index).direct block_idx = LUXFS_INVALID_BLOCK then
    match luxfs_alloc_block st with
    | none => none
    | some (st1, newb) =>
        let ino1 := { st1.inodes inode_index with
          direct := Function.update (st1.inodes inode_index).direct block_idx newb }
        some ({ st1 with inodes := Function.update st1.inodes inode_index ino1 },
          zeroBlock)
  else
    match disk_read_data_block st ((st.inodes inode_index).direct block_idx) with
    | none => none
    | some blk => some (st, blk)

/-- The copy loop of `fs_write`: write the bytes `src` starting at file
offset `write_offset`, lazily allocating a zero-filled block the first time
an unallocated direct slot is touched and read-modify-writing partial
sectors.  Returns the success flag, the state (mutations before a failure
are kept, as in the C), and the final write offset. -/
def fs_write_loop (st : LuxfsState) (inode_index : Nat) (src : List Nat)
    (write_offset : Nat) : Bool × LuxfsState × Nat :=
  if hsrc : src = [] then (true, st, write_offset)
  else
    let block_idx := write_offset / ATA_SECTOR_SIZE
    let block_offset := write_offset % ATA_SECTOR_SIZE
    if LUXFS_DIRECT_BLOCKS ≤ block_idx then (false, st, write_offset)
    else
      match fs_write_step st inode_index block_idx with
      | none => (false, st, write_offset)
      | some (st2, blkbuf) =>
          let chunk := min (ATA_SECTOR_SIZE - block_offset) src.length
          let blk2 := fun k =>
            if block_offset ≤ k ∧ k < block_offset + chunk then src.getD (k - block_offset) 0
            else blkbuf k
          match disk_write_data_block st2 ((st2.inodes inode_index).direct block_idx) blk2 with
          | none => (false, st2, write_offset)
          | some st3 => fs_write_loop st3 inode_index (src.drop chunk) (write_offset + chunk)
  termination_by src.length
  decreasing_by
    have hb : write_offset % ATA_SECTOR_SIZE < ATA_SECTOR_SIZE :=
      Nat.mod_lt _ (by simp [ATA_SECTOR_SIZE])
    have hlen : 0 < src.length := List.length_pos.mpr hsrc
    rw [List.length_drop]
    simp only [ATA_SECTOR_SIZE] at *
    omega

/-- The state after the truncate branch of `fs_write`: release all blocks
of inode `i` and (redundantly, as the release already did) zero its size. -/
def truncatedState (st : LuxfsState) (i : Nat) : LuxfsState :=
  { (luxfs_release_inode_blocks st i).1 with
    inodes := Function.update (luxfs_release_inode_blocks st i).1.inodes i
      { (luxfs_release_inode_blocks st i).1.inodes i with size := 0 } }

/-- The `write_offset > inode->size` size bump at the end of `fs_write`. -/
def sizeUpdated (st : LuxfsState) (i wo : Nat) : LuxfsState :=
  if (st.inodes i).size < wo then
    { st with inodes := Function.update st.inodes i { st.inodes i with size := wo } }
  else st

/-- `fs_write` (with a non-NULL path; `length` is `data.length`, and a NULL
buffer with non-zero length cannot arise in the model).  Returns the boolean
result together with the final state — mutations made before a late failure
are kept, exactly as with the C globals. -/
def fs_write (st : LuxfsState) (path : List Nat) (offset : Nat) (data : List Nat)
    (truncate : Bool) : Bool × LuxfsState :=
  if ¬ fs_ready st then (false, st)
  else if LUXFS_DIRECT_BLOCKS * ATA_SECTOR_SIZE < offset then (false, st)
  else if LUXFS_DIRECT_BLOCKS * ATA_SECTOR_SIZE - offset < data.length then (false, st)
  else
    match luxfs_resolve st path with
    | none => (false, st)
    | some inode_index =>
        if (st.inodes inode_index).type ≠ LUXFS_NODE_FILE then (false, st)
        else if ¬ truncate = true ∧ (st.inodes inode_index).size < offset then (false, st)
        else
          let trunc : Bool × LuxfsState :=
            if truncate then
              if (luxfs_release_inode_blocks st inode_index).2 = false then
                (false, (luxfs_release_inode_blocks st inode_index).1)
              else (true, truncatedState st inode_index)
            else (true, st)
          if trunc.1 = false then (false, trunc.2)
          else
            let st1 := trunc.2
            if data = [] then
              match luxfs_flush_inode st1 inode_index with
              | some st2 => (true, st2)
              | none => (false, st1)
            else
              match fs_write_loop st1 inode_index data offset with
              | (false, st2, _) => (false, st2)
              | (true, st2, wo) =>
                  match luxfs_flush_inode (sizeUpdated st2 inode_index wo) inode_index with
                  | some st4 => (true, st4)
                  | none => (false, sizeUpdated st2 inode_index wo)

/-! ### Concrete filesystem states for counterexamples and witnesses -/

/-- An inode as `luxfs_inode_clear` leaves it. -/
def defaultInode : LuxfsInode :=
  { type := LUXFS_NODE_FREE, size := 0, parent := 0, direct := fun _ => LUXFS_INVALID_BLOCK }

/-- Root directory holding one 36-byte record in data block 0. -/
def exRootInode : LuxfsInode :=
  { type := LUXFS_NODE_DIR, size := DIR_RECORD_SIZE, parent := 0,
    direct := fun b => if b = 0 then 0 else LUXFS_INVALID_BLOCK }

/-- An empty regular file. -/
def exFileInode : LuxfsInode :=
  { type := LUXFS_NODE_FILE, size := 0, parent := 0, direct := fun _ => LUXFS_INVALID_BLOCK }

/-- The serialised root directory record: inode 1, name "a". -/
def exRecordBytes : List Nat := [1, 0, 0, 0, 97] ++ List.replicate 31 0

def exBlock0 : Nat → Nat := fun k => exRecordBytes.getD k 0

/-- A mounted filesystem whose root directory contains the single empty file
"a" at inode 1; data block 0 holds the directory record and is the only
allocated block. -/
def exState : LuxfsState :=
  { mounted := true
    root_inode := 0
    inodes := fun j => if j = 0 then exRootInode else if j = 1 then exFileInode else defaultInode
    inode_bitmap := fun b => if b = 0 then 3 else 0
    block_bitmap := fun b => if b = 0 then 1 else 0
    disk_data := fun i => if i = 0 then exBlock0 else zeroBlock
    disk_inodes := fun j =>
      if j = 0 then exRootInode else if j = 1 then exFileInode else defaultInode
    disk_inode_bitmap := fun b => if b = 0 then 3 else 0
    disk_block_bitmap := fun b => if b = 0 then 1 else 0 }

/-- The path "/a" as its byte list. -/
def pathA : List Nat := [47, 97]

/-- Like `exState` but the file "a" claims 5 bytes of size while owning no
data block — the truncated/corrupt shape claim C2 speaks about. -/
def exCorruptFileInode : LuxfsInode :=
  { type := LUXFS_NODE_FILE, size := 5, parent := 0, direct := fun _ => LUXFS_INVALID_BLOCK }

def exCorruptState : LuxfsState :=
  { exState with inodes := fun j =>
      if j = 0 then exRootInode else if j = 1 then exCorruptFileInode else defaultInode }

/-- Like `exState` but the file "a" has 5 bytes stored in data block 1. -/
def exFullFileInode : LuxfsInode :=
  { type := LUXFS_NODE_FILE, size := 5, parent := 0,
    direct := fun b => if b = 0 then 1 else LUXFS_INVALID_BLOCK }

def exBlock1 : Nat → Nat := fun k => [104, 101, 108, 108, 111].getD k 0

def exDataState : LuxfsState :=
  { mounted := true
    root_inode := 0
    inodes := fun j =>
      if j = 0 then exRootInode else if j = 1 then exFullFileInode else defaultInode
    inode_bitmap := fun b => if b = 0 then 3 else 0
    block_bitmap := fun b => if b = 0 then 3 else 0
    disk_data := fun i => if i = 0 then exBlock0 else if i = 1 then exBlock1 else zeroBlock
    disk_inodes := fun j =>
      if j = 0 then exRootInode else if j = 1 then exFullFileInode else defaultInode
    disk_inode_bitmap := fun b => if b = 0 then 3 else 0
    disk_block_bitmap := fun b => if b = 0 then 3 else 0 }

/-! ### Claims C3, C10, C2 -/

/-- C3: every `fs_write` call with `offset + length` beyond the
8 × 512 = 4096-byte ceiling returns `false` with the filesystem state —
inode, direct pointers, data blocks, both bitmaps, in memory and on disk —
exactly as before the call, regardless of the `truncate` flag (the
rejection happens before truncation could apply). -/
theorem fs_write_rejects_beyond_ceiling (st : LuxfsState) (path : List Nat)
    (offset : Nat) (data : List Nat) (truncate : Bool)
    (h : LUXFS_DIRECT_BLOCKS * ATA_SECTOR_SIZE < offset + data.length) :
    fs_write st path offset data truncate = (false, st) := by
  unfold fs_write
  by_cases hm : ¬ fs_ready st = true
  · rw [if_pos hm]
  · rw [if_neg hm]
    by_cases ho : LUXFS_DIRECT_BLOCKS * ATA_SECTOR_SIZE < offset
    · rw [if_pos ho]
    · rw [if_neg ho,
        if_pos (show LUXFS_DIRECT_BLOCKS * ATA_SECTOR_SIZE - offset < data.length by omega)]

theorem fs_write_rejects_beyond_ceiling_witness :
    LUXFS_DIRECT_BLOCKS * ATA_SECTOR_SIZE < 4095 + [10, 11].length ∧
    fs_write exState pathA 4095 [10, 11] true = (false, exState) :=
  ⟨by decide, fs_write_rejects_beyond_ceiling exState pathA 4095 [10, 11] true (by decide)⟩

/-- C10: a non-truncating `fs_write` whose offset lies strictly past the
file's current size returns `false` and leaves the state unchanged — writes
cannot create holes past the end of the file. -/
theorem fs_write_no_holes (st : LuxfsState) (path : List Nat) (offset : Nat)
    (data : List Nat) (i : Nat)
    (hres : luxfs_resolve st path = some i)
    (htype : (st.inodes i).type = LUXFS_NODE_FILE)
    (hoff : (st.inodes i).size < offset) :
    fs_write st path offset data false = (false, st) := by
  unfold fs_write
  by_cases hm : ¬ fs_ready st = true
  · rw [if_pos hm]
  · rw [if_neg hm]
    by_cases ho : LUXFS_DIRECT_BLOCKS * ATA_SECTOR_SIZE < offset
    · rw [if_pos ho]
    · rw [if_neg ho]
      by_cases hl : LUXFS_DIRECT_BLOCKS * ATA_SECTOR_SIZE - offset < data.length
      · rw [if_pos hl]
      · rw [if_neg hl]
        simp only [hres]
        rw [if_neg (by simp [htype]), if_pos (by exact ⟨by simp, hoff⟩)]

theorem fs_write_no_holes_witness :
    luxfs_resolve exState pathA = some 1 ∧
    (exState.inodes 1).type = LUXFS_NODE_FILE ∧
    (exState.inodes 1).size < 2 ∧
    fs_write exState pathA 2 [10] false = (false, exState) :=
  have hres : luxfs_resolve exState pathA = some 1 := by
    simp [luxfs_resolve, luxfs_tokenize_path, luxfs_tokenize_path.tokenizeLoop, pathA,
      resolveLoop, luxfs_dir_find, luxfs_dir_iterate, dirIterLoop, exState, exRootInode,
      consumeRecBytes, decodeDirRecord, cstr, exBlock0, exRecordBytes, disk_read_data_block,
      LUXFS_DATA_BLOCK_COUNT, LUXFS_DATA_BLOCK_START, LUXFS_INODE_TABLE_BLOCKS,
      LUXFS_INODES_PER_BLOCK, LUXFS_INODE_SIZE_BYTES, ATA_SECTOR_SIZE, LUXFS_TOTAL_SECTORS,
      LUXFS_INODE_TABLE_START, DIR_RECORD_SIZE, FS_NAME_MAX, LUXFS_MAX_INODES,
      LUXFS_NODE_DIR, LUXFS_NODE_FILE, LUXFS_NODE_FREE, LUXFS_INVALID_BLOCK,
      LUXFS_DIRECT_BLOCKS, LUXFS_MAX_PATH_DEPTH, defaultInode, exFileInode]
  ⟨hres, by decide, by decide, fs_write_no_holes exState pathA 2 [10] 1 hres (by decide) (by decide)⟩

/-- C2 counterexample: in `exCorruptState` the file "a" has size 5 with
`direct[0]` unallocated; `fs_read` of 5 bytes at offset 0 clips the range to
5 bytes (offset < size) and immediately reaches the invalid pointer — yet it
returns `true` with `bytes_read = 0` (a successful short read), not
`false`. -/
theorem fs_read_invalid_pointer_success_cex :
    ((exCorruptState.inodes 1).direct (0 / ATA_SECTOR_SIZE) = LUXFS_INVALID_BLOCK) ∧
    luxfs_resolve exCorruptState pathA = some 1 ∧
    0 < (exCorruptState.inodes 1).size ∧
    fs_read exCorruptState pathA 0 5 = some (0, []) := by
  refine ⟨by decide, ?_, by decide, ?_⟩ <;>
    simp [fs_read, fs_read_loop, fs_ready, luxfs_resolve, luxfs_tokenize_path,
      luxfs_tokenize_path.tokenizeLoop, pathA,
      resolveLoop, luxfs_dir_find, luxfs_dir_iterate, dirIterLoop, exCorruptState, exState,
      exRootInode, exCorruptFileInode,
      consumeRecBytes, decodeDirRecord, cstr, exBlock0, exRecordBytes, disk_read_data_block,
      LUXFS_DATA_BLOCK_COUNT, LUXFS_DATA_BLOCK_START, LUXFS_INODE_TABLE_BLOCKS,
      LUXFS_INODES_PER_BLOCK, LUXFS_INODE_SIZE_BYTES, ATA_SECTOR_SIZE, LUXFS_TOTAL_SECTORS,
      LUXFS_INODE_TABLE_START, DIR_RECORD_SIZE, FS_NAME_MAX, LUXFS_MAX_INODES,
      LUXFS_NODE_DIR, LUXFS_NODE_FILE, LUXFS_NODE_FREE, LUXFS_INVALID_BLOCK,
      LUXFS_DIRECT_BLOCKS, LUXFS_MAX_PATH_DEPTH, defaultInode, exFileInode]

/-- C2 (amended): when the clipped read range of `fs_read` reaches a
direct-block slot at or past the 8-slot ceiling or an unallocated pointer
at its very first block, `fs_read` stops the copy and returns `true` with
`bytes_read = 0` — a successful short read — instead of failing. -/
theorem fs_read_short_read_on_bad_first_slot (st : LuxfsState) (path : List Nat)
    (offset length i : Nat)
    (hm : st.mounted = true)
    (hres : luxfs_resolve st path = some i)
    (htype : (st.inodes i).type = LUXFS_NODE_FILE)
    (hoff : offset < (st.inodes i).size)
    (hbad : LUXFS_DIRECT_BLOCKS ≤ offset / ATA_SECTOR_SIZE ∨
      (st.inodes i).direct (offset / ATA_SECTOR_SIZE) = LUXFS_INVALID_BLOCK) :
    fs_read st path offset length = some (0, []) := by
  unfold fs_read
  rw [if_neg (by simp [fs_ready, hm])]
  simp only [hres]
  rw [if_neg (by simp [htype]), if_neg (by omega)]
  rcases Nat.eq_zero_or_pos (min ((st.inodes i).size - offset) length) with hr | hr
  · rw [hr]
    rw [show fs_read_loop st (st.inodes i) offset 0 = some [] from by
      unfold fs_read_loop; rw [dif_pos rfl]]
    rfl
  · have hloop : fs_read_loop st (st.inodes i) offset
        (min ((st.inodes i).size - offset) length) = some [] := by
      unfold fs_read_loop
      rw [dif_neg (by omega)]
      rcases hbad with hb1 | hb2
      · rw [if_pos hb1]
      · by_cases hb1 : LUXFS_DIRECT_BLOCKS ≤ offset / ATA_SECTOR_SIZE
        · rw [if_pos hb1]
        · rw [if_neg hb1, if_pos hb2]
    rw [hloop]
    rfl

theorem fs_read_short_read_witness :
    exCorruptState.mounted = true ∧
    luxfs_resolve exCorruptState pathA = some 1 ∧
    (exCorruptState.inodes 1).type = LUXFS_NODE_FILE ∧
    2 < (exCorruptState.inodes 1).size ∧
    (LUXFS_DIRECT_BLOCKS ≤ 2 / ATA_SECTOR_SIZE ∨
      (exCorruptState.inodes 1).direct (2 / ATA_SECTOR_SIZE) = LUXFS_INVALID_BLOCK) ∧
    fs_read exCorruptState pathA 2 3 = some (0, []) :=
  have hres : luxfs_resolve exCorruptState pathA = some 1 := by
    simp [luxfs_resolve, luxfs_tokenize_path, luxfs_tokenize_path.tokenizeLoop, pathA,
      resolveLoop, luxfs_dir_find, luxfs_dir_iterate, dirIterLoop, exCorruptState, exState,
      exRootInode, exCorruptFileInode,
      consumeRecBytes, decodeDirRecord, cstr, exBlock0, exRecordBytes, disk_read_data_block,
      LUXFS_DATA_BLOCK_COUNT, LUXFS_DATA_BLOCK_START, LUXFS_INODE_TABLE_BLOCKS,
      LUXFS_INODES_PER_BLOCK, LUXFS_INODE_SIZE_BYTES, ATA_SECTOR_SIZE, LUXFS_TOTAL_SECTORS,
      LUXFS_INODE_TABLE_START, DIR_RECORD_SIZE, FS_NAME_MAX, LUXFS_MAX_INODES,
      LUXFS_NODE_DIR, LUXFS_NODE_FILE, LUXFS_NODE_FREE, LUXFS_INVALID_BLOCK,
      LUXFS_DIRECT_BLOCKS, LUXFS_MAX_PATH_DEPTH, defaultInode, exFileInode]
  ⟨rfl, hres, by decide, by decide, by decide,
    fs_read_short_read_on_bad_first_slot exCorruptState pathA 2 3 1 rfl hres
      (by decide) (by decide) (by decide)⟩

/-! ### The effect of releasing an inode's blocks (claim C7, and the
truncate path of C4) -/

theorem luxfs_free_block_some (st : LuxfsState) (index : Nat)
    (h : index < LUXFS_DATA_BLOCK_COUNT) :
    ∃ st', luxfs_free_block st index = some st' ∧
      (∀ β, β ≠ index → bitmap_test st'.block_bitmap β = bitmap_test st.block_bitmap β) ∧
      bitmap_test st'.block_bitmap index = false ∧
      st'.mounted = st.mounted ∧ st'.root_inode = st.root_inode ∧
      st'.inodes = st.inodes ∧ st'.inode_bitmap = st.inode_bitmap ∧
      st'.disk_data = st.disk_data ∧ st'.disk_inodes = st.disk_inodes ∧
      st'.disk_inode_bitmap = st.disk_inode_bitmap := by
  unfold luxfs_free_block
  rw [if_neg (by omega)]
  by_cases ht : bitmap_test st.block_bitmap index = true
  · rw [if_neg (by simp [ht])]
    refine ⟨_, rfl, ?_, ?_, rfl, rfl, rfl, rfl, rfl, rfl, rfl⟩
    · intro β hβ
      show bitmap_test (bitmap_set st.block_bitmap index false) β = _
      exact bitmap_test_set_ne _ _ _ _ hβ
    · show bitmap_test (bitmap_set st.block_bitmap index false) index = false
      exact bitmap_test_set_self _ _ _
  · rw [if_pos (by simp [ht])]
    exact ⟨st, rfl, fun β _ => rfl, by simp at ht; exact ht,
      rfl, rfl, rfl, rfl, rfl, rfl, rfl⟩

/-- What `luxfs_release_loop` does to the state when it processes the direct
slots `lo ≤ b < 8` of inode `i`. -/
structure ReleaseEffect (st st' : LuxfsState) (i lo : Nat) : Prop where
  direct_cleared : ∀ b, lo ≤ b → b < LUXFS_DIRECT_BLOCKS →
    (st'.inodes i).direct b = LUXFS_INVALID_BLOCK
  direct_frame : ∀ b, b < lo ∨ LUXFS_DIRECT_BLOCKS ≤ b →
    (st'.inodes i).direct b = (st.inodes i).direct b
  type_eq : (st'.inodes i).type = (st.inodes i).type
  size_eq : (st'.inodes i).size = (st.inodes i).size
  parent_eq : (st'.inodes i).parent = (st.inodes i).parent
  other_inodes : ∀ j, j ≠ i → st'.inodes j = st.inodes j
  bitmap_frame : ∀ β,
    (∀ b, lo ≤ b → b < LUXFS_DIRECT_BLOCKS → (st.inodes i).direct b ≠ β) →
    bitmap_test st'.block_bitmap β = bitmap_test st.block_bitmap β
  bitmap_cleared : ∀ b, lo ≤ b → b < LUXFS_DIRECT_BLOCKS →
    (st.inodes i).direct b ≠ LUXFS_INVALID_BLOCK →
    bitmap_test st'.block_bitmap ((st.inodes i).direct b) = false
  mounted_eq : st'.mounted = st.mounted
  root_eq : st'.root_inode = st.root_inode
  data_eq : st'.disk_data = st.disk_data
  inode_bitmap_eq : st'.inode_bitmap = st.inode_bitmap
  disk_inodes_eq : st'.disk_inodes = st.disk_inodes
  disk_inode_bitmap_eq : st'.disk_inode_bitmap = st.disk_inode_bitmap

theorem release_effect_refl (st : LuxfsState) (i : Nat) :
    ReleaseEffect st st i LUXFS_DIRECT_BLOCKS where
  direct_cleared := fun b hb1 hb2 => by omega
  direct_frame := fun b _ => rfl
  type_eq := rfl
  size_eq := rfl
  parent_eq := rfl
  other_inodes := fun j _ => rfl
  bitmap_frame := fun β _ => rfl
  bitmap_cleared := fun b hb1 hb2 => by simp only [LUXFS_DIRECT_BLOCKS] at hb1 hb2; omega
  mounted_eq := rfl
  root_eq := rfl
  data_eq := rfl
  inode_bitmap_eq := rfl
  disk_inodes_eq := rfl
  disk_inode_bitmap_eq := rfl

/-- The per-slot mutation of `luxfs_release_loop`: invalidate direct slot
`b0` of inode `i`. -/
def releaseClearSlot (stf : LuxfsState) (i b0 : Nat) : LuxfsState :=
  { stf with
    inodes := Function.update stf.inodes i
      ({ stf.inodes i with
          direct := Function.update (stf.inodes i).direct b0 LUXFS_INVALID_BLOCK }) }

theorem luxfs_release_loop_succ_valid (k : Nat) (st : LuxfsState) (i : Nat) (ok : Bool)
    (stf : LuxfsState) (okf : Bool)
    (hval : (st.inodes i).direct (LUXFS_DIRECT_BLOCKS - (k + 1)) ≠ LUXFS_INVALID_BLOCK)
    (hstep :
      (match luxfs_free_block st ((st.inodes i).direct (LUXFS_DIRECT_BLOCKS - (k + 1))) with
        | some st' => (st', ok)
        | none => (st, false)) = (stf, okf)) :
    luxfs_release_loop (k + 1) st i ok =
      luxfs_release_loop k (releaseClearSlot stf i (LUXFS_DIRECT_BLOCKS - (k + 1))) i okf := by
  simp only [luxfs_release_loop]
  rw [if_pos hval, hstep]
  rfl

theorem luxfs_release_loop_spec (k : Nat) : ∀ (st : LuxfsState) (i : Nat) (ok : Bool),
    k ≤ LUXFS_DIRECT_BLOCKS →
    (∀ b, LUXFS_DIRECT_BLOCKS - k ≤ b → b < LUXFS_DIRECT_BLOCKS →
      (st.inodes i).direct b ≠ LUXFS_INVALID_BLOCK →
      (st.inodes i).direct b < LUXFS_DATA_BLOCK_COUNT) →
    (luxfs_release_loop k st i ok).2 = ok ∧
    ReleaseEffect st (luxfs_release_loop k st i ok).1 i (LUXFS_DIRECT_BLOCKS - k) := by
  induction k with
  | zero =>
      intro st i ok _ _
      exact ⟨rfl, by simpa using release_effect_refl st i⟩
  | succ k ih =>
      intro st i ok hk hrange
      by_cases hval : (st.inodes i).direct (LUXFS_DIRECT_BLOCKS - (k + 1)) = LUXFS_INVALID_BLOCK
      · simp only [luxfs_release_loop]
        rw [if_neg (by simpa using hval)]
        obtain ⟨hok, he⟩ := ih st i ok (by omega) (fun b hb1 hb2 => hrange b (by omega) hb2)
        refine ⟨hok, ?_⟩
        refine ⟨?_, ?_, he.type_eq, he.size_eq, he.parent_eq, he.other_inodes, ?_, ?_,
          he.mounted_eq, he.root_eq, he.data_eq, he.inode_bitmap_eq, he.disk_inodes_eq,
          he.disk_inode_bitmap_eq⟩
        · intro b hb1 hb2
          by_cases hbe : b = LUXFS_DIRECT_BLOCKS - (k + 1)
          · rw [he.direct_frame b (Or.inl (by omega)), hbe]
            exact hval
          · exact he.direct_cleared b (by omega) hb2
        · intro b hb
          exact he.direct_frame b (by omega)
        · intro β hβ
          exact he.bitmap_frame β (fun b hb1 hb2 => hβ b (by omega) hb2)
        · intro b hb1 hb2 hbv
          by_cases hbe : b = LUXFS_DIRECT_BLOCKS - (k + 1)
          · rw [hbe] at hbv
            exact absurd hval hbv
          · exact he.bitmap_cleared b (by omega) hb2 hbv
      · have hb0lt : LUXFS_DIRECT_BLOCKS - (k + 1) < LUXFS_DIRECT_BLOCKS :=
          Nat.sub_lt (by decide) (Nat.succ_pos k)
        have hβ0lt : (st.inodes i).direct (LUXFS_DIRECT_BLOCKS - (k + 1)) <
            LUXFS_DATA_BLOCK_COUNT := hrange _ le_rfl hb0lt hval
        obtain ⟨stf, hfree, hfne, hfcl, hfm, hfr, hfi, hfib, hfd, hfdi, hfdib⟩ :=
          luxfs_free_block_some st _ hβ0lt
        rw [luxfs_release_loop_succ_valid k st i ok stf ok hval (by rw [hfree])]
        set b0 := LUXFS_DIRECT_BLOCKS - (k + 1) with hb0
        set st2 : LuxfsState := releaseClearSlot stf i b0 with hst2
        have hst2i : st2.inodes i = { stf.inodes i with
            direct := Function.update (stf.inodes i).direct b0 LUXFS_INVALID_BLOCK } := by
          rw [hst2]
          show Function.update stf.inodes i _ i = _
          exact Function.update_same _ _ _
        have hst2j : ∀ j, j ≠ i → st2.inodes j = st.inodes j := by
          intro j hj
          rw [hst2]
          show Function.update stf.inodes i _ j = _
          rw [Function.update_noteq hj _ _, hfi]
        have hst2direct : ∀ b, b ≠ b0 →
            (st2.inodes i).direct b = (st.inodes i).direct b := by
          intro b hb
          rw [hst2i]
          show Function.update (stf.inodes i).direct b0 LUXFS_INVALID_BLOCK b = _
          rw [Function.update_noteq hb _ _, hfi]
        have hst2b0 : (st2.inodes i).direct b0 = LUXFS_INVALID_BLOCK := by
          rw [hst2i]
          exact Function.update_same _ _ _
        obtain ⟨hok, he⟩ := ih st2 i ok (by omega) (fun b hb1 hb2 hbv => by
          rw [hst2direct b (by omega)] at hbv ⊢
          exact hrange b (by omega) hb2 hbv)
        refine ⟨hok, ?_⟩
        refine ⟨?_, ?_, ?_, ?_, ?_, ?_, ?_, ?_, ?_, ?_, ?_, ?_, ?_, ?_⟩
        · -- direct_cleared
          intro b hb1 hb2
          by_cases hbe : b = b0
          · rw [he.direct_frame b (Or.inl (by omega)), hbe, hst2b0]
          · exact he.direct_cleared b (by omega) hb2
        · -- direct_frame
          intro b hb
          rw [he.direct_frame b (by omega), hst2direct b (by omega)]
        · rw [he.type_eq, hst2i, hfi]
        · rw [he.size_eq, hst2i, hfi]
        · rw [he.parent_eq, hst2i, hfi]
        · intro j hj
          rw [he.other_inodes j hj, hst2j j hj]
        · -- bitmap_frame
          intro β hβ
          have h1 := he.bitmap_frame β (fun b hb1 hb2 => by
            rw [hst2direct b (by omega)]
            exact hβ b (by omega) hb2)
          rw [h1]
          show bitmap_test st2.block_bitmap β = _
          rw [show st2.block_bitmap = stf.block_bitmap from rfl]
          rw [hfne β (Ne.symm (hβ b0 le_rfl hb0lt))]
        · -- bitmap_cleared
          intro b hb1 hb2 hbv
          by_cases hbe : b = b0
          · by_cases hlater : ∃ b', LUXFS_DIRECT_BLOCKS - k ≤ b' ∧ b' < LUXFS_DIRECT_BLOCKS ∧
                (st.inodes i).direct b' = (st.inodes i).direct b
            · obtain ⟨b', hb'1, hb'2, hb'eq⟩ := hlater
              have := he.bitmap_cleared b' hb'1 hb'2 (by
                rw [hst2direct b' (by omega), hb'eq]
                exact hbv)
              rw [hst2direct b' (by omega), hb'eq] at this
              exact this
            · push_neg at hlater
              have h1 := he.bitmap_frame ((st.inodes i).direct b) (fun b' hb'1 hb'2 => by
                rw [hst2direct b' (by omega)]
                exact fun hc => (hlater b' hb'1 hb'2) hc)
              rw [h1]
              show bitmap_test st2.block_bitmap _ = _
              rw [show st2.block_bitmap = stf.block_bitmap from rfl, hbe]
              exact hfcl
          · rw [← hst2direct b hbe]
            exact he.bitmap_cleared b (by omega) hb2 (by
              rw [hst2direct b hbe]
              exact hbv)
        · rw [he.mounted_eq]
          show st2.mounted = _
          rw [show st2.mounted = stf.mounted from rfl, hfm]
        · rw [he.root_eq]
          show st2.root_inode = _
          rw [show st2.root_inode = stf.root_inode from rfl, hfr]
        · rw [he.data_eq]
          show st2.disk_data = _
          rw [show st2.disk_data = stf.disk_data from rfl, hfd]
        · rw [he.inode_bitmap_eq]
          show st2.inode_bitmap = _
          rw [show st2.inode_bitmap = stf.inode_bitmap from rfl, hfib]
        · rw [he.disk_inodes_eq]
          show st2.disk_inodes = _
          rw [show st2.disk_inodes = stf.disk_inodes from rfl, hfdi]
        · rw [he.disk_inode_bitmap_eq]
          show st2.disk_inode_bitmap = _
          rw [show st2.disk_inode_bitmap = stf.disk_inode_bitmap from rfl, hfdib]

/-- `luxfs_release_inode_blocks` when every allocated pointer of inode `i`
is in range: it reports success, zeroes the size, invalidates every direct
slot, clears the block-bitmap bit of every previously held block, and
touches no other bitmap bit, no other inode and no other state
component. -/
theorem luxfs_release_inode_blocks_spec (st : LuxfsState) (i : Nat)
    (hrange : ∀ b, b < LUXFS_DIRECT_BLOCKS →
      (st.inodes i).direct b ≠ LUXFS_INVALID_BLOCK →
      (st.inodes i).direct b < LUXFS_DATA_BLOCK_COUNT) :
    (luxfs_release_inode_blocks st i).2 = true ∧
    ((luxfs_release_inode_blocks st i).1.inodes i).size = 0 ∧
    ((luxfs_release_inode_blocks st i).1.inodes i).type = (st.inodes i).type ∧
    ((luxfs_release_inode_blocks st i).1.inodes i).parent = (st.inodes i).parent ∧
    (∀ b, b < LUXFS_DIRECT_BLOCKS →
      ((luxfs_release_inode_blocks st i).1.inodes i).direct b = LUXFS_INVALID_BLOCK) ∧
    (∀ j, j ≠ i → (luxfs_release_inode_blocks st i).1.inodes j = st.inodes j) ∧
    (∀ β, (∀ b, b < LUXFS_DIRECT_BLOCKS → (st.inodes i).direct b ≠ β) →
      bitmap_test (luxfs_release_inode_blocks st i).1.block_bitmap β =
        bitmap_test st.block_bitmap β) ∧
    (∀ b, b < LUXFS_DIRECT_BLOCKS → (st.inodes i).direct b ≠ LUXFS_INVALID_BLOCK →
      bitmap_test (luxfs_release_inode_blocks st i).1.block_bitmap
        ((st.inodes i).direct b) = false) ∧
    (luxfs_release_inode_blocks st i).1.mounted = st.mounted ∧
    (luxfs_release_inode_blocks st i).1.root_inode = st.root_inode ∧
    (luxfs_release_inode_blocks st i).1.disk_data = st.disk_data ∧
    (luxfs_release_inode_blocks st i).1.inode_bitmap = st.inode_bitmap ∧
    (luxfs_release_inode_blocks st i).1.disk_inodes = st.disk_inodes ∧
    (luxfs_release_inode_blocks st i).1.disk_inode_bitmap = st.disk_inode_bitmap := by
  obtain ⟨hok, he⟩ := luxfs_release_loop_spec LUXFS_DIRECT_BLOCKS st i true le_rfl
    (fun b _ hb2 hv => hrange b hb2 hv)
  rw [Nat.sub_self] at he
  have hupd : (luxfs_release_inode_blocks st i).1.inodes i =
      { (luxfs_release_loop LUXFS_DIRECT_BLOCKS st i true).1.inodes i with size := 0 } := by
    show Function.update (luxfs_release_loop LUXFS_DIRECT_BLOCKS st i true).1.inodes i
      { (luxfs_release_loop LUXFS_DIRECT_BLOCKS st i true).1.inodes i with size := 0 } i = _
    exact Function.update_same _ _ _
  refine ⟨hok, ?_, ?_, ?_, ?_, ?_, ?_, ?_, he.mounted_eq, he.root_eq, he.data_eq,
    he.inode_bitmap_eq, he.disk_inodes_eq, he.disk_inode_bitmap_eq⟩
  · rw [hupd]
  · rw [hupd]
    exact he.type_eq
  · rw [hupd]
    exact he.parent_eq
  · intro b hb
    rw [hupd]
    exact he.direct_cleared b (Nat.zero_le _) hb
  · intro j hj
    show Function.update (luxfs_release_loop LUXFS_DIRECT_BLOCKS st i true).1.inodes i
      { (luxfs_release_loop LUXFS_DIRECT_BLOCKS st i true).1.inodes i with size := 0 } j = _
    rw [Function.update_noteq hj _ _]
    exact he.other_inodes j hj
  · intro β hβ
    exact he.bitmap_frame β (fun b _ hb2 => hβ b hb2)
  · intro b hb hv
    exact he.bitmap_cleared b (Nat.zero_le _) hb hv

/-- The state `luxfs_flush_inode st i` produces on a valid index: the
whole 8-inode table sector containing `i` copied from memory to disk. -/
def flushedState (st : LuxfsState) (i : Nat) : LuxfsState :=
  { st with disk_inodes := fun j =>
      if (i / LUXFS_INODES_PER_BLOCK) * LUXFS_INODES_PER_BLOCK ≤ j ∧
         j < (i / LUXFS_INODES_PER_BLOCK) * LUXFS_INODES_PER_BLOCK + LUXFS_INODES_PER_BLOCK
      then st.inodes j else st.disk_inodes j }

/-- `luxfs_flush_inode` on a valid index always succeeds. -/
theorem luxfs_flush_inode_some (st : LuxfsState) (i : Nat) (hi : i < LUXFS_MAX_INODES) :
    luxfs_flush_inode st i = some (flushedState st i) := by
  unfold luxfs_flush_inode
  rw [if_neg (by omega)]
  rfl

theorem truncatedState_inodes_self (st : LuxfsState) (i : Nat) :
    (truncatedState st i).inodes i =
      { (luxfs_release_inode_blocks st i).1.inodes i with size := 0 } := by
  show Function.update (luxfs_release_inode_blocks st i).1.inodes i
    { (luxfs_release_inode_blocks st i).1.inodes i with size := 0 } i = _
  exact Function.update_same _ _ _

/-- The final state of a zero-length truncating `fs_write`: the truncated
state with its inode sector flushed to disk. -/
def truncFlushState (st : LuxfsState) (i : Nat) : LuxfsState :=
  flushedState (truncatedState st i) i

/-- Evaluation of the zero-length truncating `fs_write` call: when all the
guard checks pass and the block release succeeds, the call returns `true`
with the truncated-and-flushed state. -/
theorem fs_write_trunc_zero_eval (st : LuxfsState) (path : List Nat) (offset i : Nat)
    (hm : fs_ready st = true)
    (hres : luxfs_resolve st path = some i)
    (htype : (st.inodes i).type = LUXFS_NODE_FILE)
    (hi : i < LUXFS_MAX_INODES)
    (hoff : offset ≤ LUXFS_DIRECT_BLOCKS * ATA_SECTOR_SIZE)
    (hok : (luxfs_release_inode_blocks st i).2 = true) :
    fs_write st path offset [] true = (true, truncFlushState st i) := by
  have hflush : luxfs_flush_inode (truncatedState st i) i = some (truncFlushState st i) :=
    luxfs_flush_inode_some (truncatedState st i) i hi
  simp only [fs_write]
  rw [if_neg (by simp [hm])]
  rw [if_neg (by omega)]
  rw [if_neg (by simp)]
  simp only [hres]
  rw [if_neg (by simp [htype])]
  rw [if_neg (by simp)]
  rw [hok]
  simp only [if_true, eq_false (by decide : ¬ ((true : Bool) = false)), if_false]
  split
  · rename_i st2 heq
    have h2 : luxfs_flush_inode (truncatedState st i) i = some st2 := heq
    rw [hflush] at h2
    cases h2
    rfl
  · rename_i heq
    have h2 : luxfs_flush_inode (truncatedState st i) i = none := heq
    rw [hflush] at h2
    cases h2

/-- Conclusion of claim C7 about the call `fs_write path offset [] true` on
the file at inode `i`: success, size zero, all direct pointers invalid,
every previously allocated block freed in the block bitmap, and the
now-empty inode persisted to the disk inode table. -/
def TruncateStatement (st : LuxfsState) (path : List Nat) (offset i : Nat) : Prop :=
  (fs_write st path offset [] true).1 = true ∧
  ((fs_write st path offset [] true).2.inodes i).size = 0 ∧
  (∀ b, b < LUXFS_DIRECT_BLOCKS →
    ((fs_write st path offset [] true).2.inodes i).direct b = LUXFS_INVALID_BLOCK) ∧
  (∀ b, b < LUXFS_DIRECT_BLOCKS → (st.inodes i).direct b ≠ LUXFS_INVALID_BLOCK →
    bitmap_test (fs_write st path offset [] true).2.block_bitmap
      ((st.inodes i).direct b) = false) ∧
  (fs_write st path offset [] true).2.disk_inodes i =
    (fs_write st path offset [] true).2.inodes i

/-- C7: calling `fs_write` with `truncate = true` and zero length on an
existing file (a mounted filesystem, a path resolving to a FILE inode in
table range, an in-bounds offset, and in-range allocated block pointers)
succeeds and leaves the file with size 0 and no allocated direct blocks:
every previously allocated block is freed in the block bitmap, every direct
pointer is `LUXFS_INVALID_BLOCK`, and the now-empty inode is persisted to
the disk inode table. -/
theorem fs_write_truncate_zero (st : LuxfsState) (path : List Nat) (offset i : Nat)
    (hm : fs_ready st = true)
    (hres : luxfs_resolve st path = some i)
    (htype : (st.inodes i).type = LUXFS_NODE_FILE)
    (hi : i < LUXFS_MAX_INODES)
    (hoff : offset ≤ LUXFS_DIRECT_BLOCKS * ATA_SECTOR_SIZE)
    (hrange : ∀ b, b < LUXFS_DIRECT_BLOCKS →
      (st.inodes i).direct b ≠ LUXFS_INVALID_BLOCK →
      (st.inodes i).direct b < LUXFS_DATA_BLOCK_COUNT) :
    TruncateStatement st path offset i := by
  obtain ⟨hok, hsz, hty, hpa, hdi, hoth, hbf, hbc, hmo, hro, hda, hib, hdn, hdb⟩ :=
    luxfs_release_inode_blocks_spec st i hrange
  have hfw := fs_write_trunc_zero_eval st path offset i hm hres htype hi hoff hok
  refine ⟨?_, ?_, ?_, ?_, ?_⟩ <;> rw [hfw]
  · show ((truncatedState st i).inodes i).size = 0
    rw [truncatedState_inodes_self]
  · intro b hb
    show ((truncatedState st i).inodes i).direct b = LUXFS_INVALID_BLOCK
    rw [truncatedState_inodes_self]
    exact hdi b hb
  · intro b hb hv
    exact hbc b hb hv
  · show (if (i / LUXFS_INODES_PER_BLOCK) * LUXFS_INODES_PER_BLOCK ≤ i ∧
        i < (i / LUXFS_INODES_PER_BLOCK) * LUXFS_INODES_PER_BLOCK + LUXFS_INODES_PER_BLOCK
      then (truncatedState st i).inodes i else (truncatedState st i).disk_inodes i) =
      (truncFlushState st i).inodes i
    rw [if_pos (by simp only [LUXFS_INODES_PER_BLOCK, ATA_SECTOR_SIZE,
      LUXFS_INODE_SIZE_BYTES]; omega : _ ∧ _)]
    rfl

theorem fs_write_truncate_zero_witness :
    fs_ready exDataState = true ∧
    luxfs_resolve exDataState pathA = some 1 ∧
    (exDataState.inodes 1).type = LUXFS_NODE_FILE ∧
    (1 : Nat) < LUXFS_MAX_INODES ∧
    (0 : Nat) ≤ LUXFS_DIRECT_BLOCKS * ATA_SECTOR_SIZE ∧
    (∀ b, b < LUXFS_DIRECT_BLOCKS →
      (exDataState.inodes 1).direct b ≠ LUXFS_INVALID_BLOCK →
      (exDataState.inodes 1).direct b < LUXFS_DATA_BLOCK_COUNT) ∧
    TruncateStatement exDataState pathA 0 1 :=
  have hres : luxfs_resolve exDataState pathA = some 1 := by
    simp [luxfs_resolve, luxfs_tokenize_path, luxfs_tokenize_path.tokenizeLoop, pathA,
      resolveLoop, luxfs_dir_find, luxfs_dir_iterate, dirIterLoop, exDataState, exRootInode,
      consumeRecBytes, decodeDirRecord, cstr, exBlock0, exRecordBytes, disk_read_data_block,
      LUXFS_DATA_BLOCK_COUNT, LUXFS_DATA_BLOCK_START, LUXFS_INODE_TABLE_BLOCKS,
      LUXFS_INODES_PER_BLOCK, LUXFS_INODE_SIZE_BYTES, ATA_SECTOR_SIZE, LUXFS_TOTAL_SECTORS,
      LUXFS_INODE_TABLE_START, DIR_RECORD_SIZE, FS_NAME_MAX, LUXFS_MAX_INODES,
      LUXFS_NODE_DIR, LUXFS_NODE_FILE, LUXFS_NODE_FREE, LUXFS_INVALID_BLOCK,
      LUXFS_DIRECT_BLOCKS, LUXFS_MAX_PATH_DEPTH, defaultInode, exFullFileInode]
  ⟨by decide, hres, by decide, by decide, by decide, by decide,
    fs_write_truncate_zero exDataState pathA 0 1 (by decide) hres (by decide) (by decide)
      (by decide) (by decide)⟩

/-! ### Claim C4: write/read round trip -/

theorem scanFreeBlock_some (bm : Nat → Nat) :
    ∀ k i, scanFreeBlock bm k = some i →
      i < LUXFS_DATA_BLOCK_COUNT ∧ bitmap_test bm i = false := by
  intro k
  induction k with
  | zero =>
      intro i h
      simp [scanFreeBlock] at h
  | succ k ih =>
      intro i h
      simp only [scanFreeBlock] at h
      split at h
      · exact ih i h
      · rename_i hfree
        cases h
        refine ⟨by have h4 : 0 < LUXFS_DATA_BLOCK_COUNT := (by decide); omega, ?_⟩
        rw [Bool.not_eq_true] at hfree
        exact hfree

/-- Everything `luxfs_alloc_block` does when it succeeds. -/
theorem luxfs_alloc_block_some (st st1 : LuxfsState) (newb : Nat)
    (h : luxfs_alloc_block st = some (st1, newb)) :
    newb < LUXFS_DATA_BLOCK_COUNT ∧ bitmap_test st.block_bitmap newb = false ∧
    st1.block_bitmap = bitmap_set st.block_bitmap newb true ∧
    st1.mounted = st.mounted ∧ st1.root_inode = st.root_inode ∧
    st1.inodes = st.inodes ∧ st1.inode_bitmap = st.inode_bitmap ∧
    st1.disk_data = st.disk_data ∧ st1.disk_inodes = st.disk_inodes ∧
    st1.disk_inode_bitmap = st.disk_inode_bitmap := by
  unfold luxfs_alloc_block at h
  split at h
  · cases h
  · rename_i b hscan
    obtain ⟨hlt, hfree⟩ := scanFreeBlock_some st.block_bitmap LUXFS_DATA_BLOCK_COUNT b hscan
    cases h
    exact ⟨hlt, hfree, rfl, rfl, rfl, rfl, rfl, rfl, rfl, rfl⟩

theorem disk_write_data_block_some (st : LuxfsState) (index : Nat) (b : Nat → Nat)
    (st' : LuxfsState) (h : disk_write_data_block st index b = some st') :
    index < LUXFS_DATA_BLOCK_COUNT ∧
    st' = { st with disk_data := Function.update st.disk_data index b } := by
  unfold disk_write_data_block at h
  split at h
  · cases h
  · rename_i hc
    cases h
    exact ⟨by omega, rfl⟩

theorem luxfs_flush_inode_lt (st : LuxfsState) (i : Nat) (s : LuxfsState)
    (h : luxfs_flush_inode st i = some s) : i < LUXFS_MAX_INODES := by
  unfold luxfs_flush_inode at h
  split at h
  · cases h
  · rename_i hc
    omega

theorem bitmap_test_set_true_of (bm : Nat → Nat) (idx β : Nat)
    (h : bitmap_test bm β = true) : bitmap_test (bitmap_set bm idx true) β = true := by
  by_cases hb : β = idx
  · rw [hb]
    exact bitmap_test_set_self bm idx true
  · rw [bitmap_test_set_ne bm idx β true hb]
    exact h

theorem bitmap_test_false_of_set_true (bm : Nat → Nat) (idx β : Nat)
    (h : bitmap_test (bitmap_set bm idx true) β = false) :
    bitmap_test bm β = false ∧ β ≠ idx := by
  by_cases hb : β = idx
  · rw [hb, bitmap_test_set_self bm idx true] at h
    cases h
  · rw [bitmap_test_set_ne bm idx β true hb] at h
    exact ⟨h, hb⟩

theorem range_map_getD_eq_take (src : List Nat) (chunk : Nat) (h : chunk ≤ src.length) :
    ((List.range chunk).map fun k => src.getD k 0) = src.take chunk := by
  apply List.ext_getElem
  · simpa using (Nat.min_eq_left h).symm
  · intro n h1 h2
    rw [List.getElem_map, List.getElem_range, List.getElem_take]
    rw [List.getD_eq_getElem?_getD,
      List.getElem?_eq_getElem (by simp at h1; omega), Option.getD_some]

/-- `dirIterLoop` only looks at the state through the data blocks the
directory's valid direct pointers reference. -/
theorem dirIterLoop_congr {σ : Type} (st st' : LuxfsState) (cb : DirRecord → σ → Bool × σ)
    (dir : LuxfsInode)
    (hdata : ∀ b, b < LUXFS_DIRECT_BLOCKS → dir.direct b ≠ LUXFS_INVALID_BLOCK →
      st'.disk_data (dir.direct b) = st.disk_data (dir.direct b)) :
    ∀ remaining offset recbuf ctx,
      dirIterLoop st' cb dir offset remaining recbuf ctx =
        dirIterLoop st cb dir offset remaining recbuf ctx := by
  intro remaining
  induction remaining using Nat.strong_induction_on with
  | _ remaining ihr =>
      intro offset recbuf ctx
      unfold dirIterLoop
      by_cases h0 : remaining = 0
      · rw [dif_pos h0, dif_pos h0]
      · rw [dif_neg h0, dif_neg h0]
        by_cases hbi : LUXFS_DIRECT_BLOCKS ≤ offset / ATA_SECTOR_SIZE
        · rw [if_pos hbi, if_pos hbi]
        · rw [if_neg hbi, if_neg hbi]
          by_cases hval : dir.direct (offset / ATA_SECTOR_SIZE) = LUXFS_INVALID_BLOCK
          · rw [if_pos hval, if_pos hval]
          · rw [if_neg hval, if_neg hval]
            have hd : disk_read_data_block st' (dir.direct (offset / ATA_SECTOR_SIZE)) =
                disk_read_data_block st (dir.direct (offset / ATA_SECTOR_SIZE)) := by
              unfold disk_read_data_block
              by_cases hc : LUXFS_DATA_BLOCK_COUNT ≤ dir.direct (offset / ATA_SECTOR_SIZE)
              · rw [if_pos hc, if_pos hc]
              · rw [if_neg hc, if_neg hc, hdata _ (by omega) hval]
            rw [hd]
            split
            · rfl
            · dsimp only
              split
              · rfl
              · exact ihr _ (by simp only [ATA_SECTOR_SIZE] at h0 ⊢; omega) _ _ _

theorem luxfs_dir_iterate_congr {σ : Type} (st st' : LuxfsState) (i dir_index : Nat)
    (cb : DirRecord → σ → Bool × σ) (ctx : σ)
    (htype : (st.inodes i).type = LUXFS_NODE_FILE)
    (hB : ∀ j, j ≠ i → st'.inodes j = st.inodes j)
    (hCt : (st'.inodes i).type = (st.inodes i).type)
    (hD : ∀ j, (st.inodes j).type = LUXFS_NODE_DIR → ∀ b, b < LUXFS_DIRECT_BLOCKS →
      (st.inodes j).direct b ≠ LUXFS_INVALID_BLOCK →
      st'.disk_data ((st.inodes j).direct b) = st.disk_data ((st.inodes j).direct b)) :
    luxfs_dir_iterate st' dir_index cb ctx = luxfs_dir_iterate st dir_index cb ctx := by
  unfold luxfs_dir_iterate
  by_cases hm : LUXFS_MAX_INODES ≤ dir_index
  · rw [if_pos hm, if_pos hm]
  · rw [if_neg hm, if_neg hm]
    by_cases hj : dir_index = i
    · subst hj
      rw [if_pos (show (st'.inodes dir_index).type ≠ LUXFS_NODE_DIR from by
          rw [hCt, htype]; decide),
        if_pos (show (st.inodes dir_index).type ≠ LUXFS_NODE_DIR from by
          rw [htype]; decide)]
    · rw [hB dir_index hj]
      by_cases hdir : (st.inodes dir_index).type ≠ LUXFS_NODE_DIR
      · rw [if_pos hdir, if_pos hdir]
      · rw [if_neg hdir, if_neg hdir]
        push_neg at hdir
        exact dirIterLoop_congr st st' cb (st.inodes dir_index)
          (fun b hb hv => hD dir_index hdir b hb hv) _ _ _ _

theorem luxfs_dir_find_congr (st st' : LuxfsState) (i dir_index : Nat) (name : List Nat)
    (htype : (st.inodes i).type = LUXFS_NODE_FILE)
    (hB : ∀ j, j ≠ i → st'.inodes j = st.inodes j)
    (hCt : (st'.inodes i).type = (st.inodes i).type)
    (hD : ∀ j, (st.inodes j).type = LUXFS_NODE_DIR → ∀ b, b < LUXFS_DIRECT_BLOCKS →
      (st.inodes j).direct b ≠ LUXFS_INVALID_BLOCK →
      st'.disk_data ((st.inodes j).direct b) = st.disk_data ((st.inodes j).direct b)) :
    luxfs_dir_find st' dir_index name = luxfs_dir_find st dir_index name := by
  unfold luxfs_dir_find
  rw [luxfs_dir_iterate_congr st st' i dir_index _ _ htype hB hCt hD]

theorem resolveLoop_congr (st st' : LuxfsState) (i : Nat)
    (htype : (st.inodes i).type = LUXFS_NODE_FILE)
    (hB : ∀ j, j ≠ i → st'.inodes j = st.inodes j)
    (hCt : (st'.inodes i).type = (st.inodes i).type)
    (hCp : (st'.inodes i).parent = (st.inodes i).parent)
    (hD : ∀ j, (st.inodes j).type = LUXFS_NODE_DIR → ∀ b, b < LUXFS_DIRECT_BLOCKS →
      (st.inodes j).direct b ≠ LUXFS_INVALID_BLOCK →
      st'.disk_data ((st.inodes j).direct b) = st.disk_data ((st.inodes j).direct b)) :
    ∀ comps current, resolveLoop st' comps current = resolveLoop st comps current := by
  intro comps
  induction comps with
  | nil => intro current; rfl
  | cons comp rest ihc =>
      intro current
      unfold resolveLoop
      by_cases hdd : comp = [46, 46]
      · rw [if_pos hdd, if_pos hdd]
        have hp : (st'.inodes current).parent = (st.inodes current).parent := by
          by_cases hci : current = i
          · rw [hci]
            exact hCp
          · rw [hB current hci]
        rw [hp]
        exact ihc _
      · rw [if_neg hdd, if_neg hdd]
        rw [luxfs_dir_find_congr st st' i current comp htype hB hCt hD]
        split
        · rfl
        · rename_i child heq
          exact ihc child

theorem luxfs_resolve_congr (st st' : LuxfsState) (i : Nat) (path : List Nat)
    (htype : (st.inodes i).type = LUXFS_NODE_FILE)
    (hB : ∀ j, j ≠ i → st'.inodes j = st.inodes j)
    (hCt : (st'.inodes i).type = (st.inodes i).type)
    (hCp : (st'.inodes i).parent = (st.inodes i).parent)
    (hD : ∀ j, (st.inodes j).type = LUXFS_NODE_DIR → ∀ b, b < LUXFS_DIRECT_BLOCKS →
      (st.inodes j).direct b ≠ LUXFS_INVALID_BLOCK →
      st'.disk_data ((st.inodes j).direct b) = st.disk_data ((st.inodes j).direct b))
    (hroot : st'.root_inode = st.root_inode) :
    luxfs_resolve st' path = luxfs_resolve st path := by
  unfold luxfs_resolve
  cases luxfs_tokenize_path path with
  | none => rfl
  | some comps =>
      rw [hroot]
      exact resolveLoop_congr st st' i htype hB hCt hCp hD comps st.root_inode

/-- Everything `fs_write_step` guarantees when it succeeds: the block `β`
now sitting in the direct slot is in range, nothing but that slot and the
block bitmap changed, allocated bits only get added, and `β` is either the
slot's previous occupant or a block that was free beforehand. -/
theorem fs_write_step_some (st : LuxfsState) (i bidx : Nat) (st2 : LuxfsState)
    (blkbuf : Nat → Nat) (h : fs_write_step st i bidx = some (st2, blkbuf)) :
    ∃ β, β < LUXFS_DATA_BLOCK_COUNT ∧ (st2.inodes i).direct bidx = β ∧
      (∀ b, b ≠ bidx → (st2.inodes i).direct b = (st.inodes i).direct b) ∧
      (st2.inodes i).type = (st.inodes i).type ∧
      (st2.inodes i).size = (st.inodes i).size ∧
      (st2.inodes i).parent = (st.inodes i).parent ∧
      (∀ j, j ≠ i → st2.inodes j = st.inodes j) ∧
      st2.disk_data = st.disk_data ∧ st2.mounted = st.mounted ∧
      st2.root_inode = st.root_inode ∧
      (∀ γ, bitmap_test st.block_bitmap γ = true → bitmap_test st2.block_bitmap γ = true) ∧
      (∀ γ, bitmap_test st2.block_bitmap γ = false → bitmap_test st.block_bitmap γ = false) ∧
      ((bitmap_test st.block_bitmap β = false ∧ bitmap_test st2.block_bitmap β = true) ∨
        ((st.inodes i).direct bidx = β ∧
          (st.inodes i).direct bidx ≠ LUXFS_INVALID_BLOCK)) := by
  unfold fs_write_step at h
  split at h
  · rename_i hinv
    split at h
    · cases h
    · rename_i p st1 newb halloc
      obtain ⟨hlt, hfree, hbm1, hm1, hr1, hin1, _, hdd1, _, _⟩ :=
        luxfs_alloc_block_some st st1 newb halloc
      cases h
      refine ⟨newb, hlt, ?_, ?_, ?_, ?_, ?_, ?_, by rw [hdd1], by rw [hm1], by rw [hr1],
        ?_, ?_, Or.inl ⟨hfree, by
          show bitmap_test st1.block_bitmap newb = true
          rw [hbm1]
          exact bitmap_test_set_self _ _ _⟩⟩
      · show (Function.update st1.inodes i _ i).direct bidx = newb
        rw [Function.update_same]
        exact Function.update_same _ _ _
      · intro b hb
        show (Function.update st1.inodes i _ i).direct b = _
        rw [Function.update_same]
        show Function.update (st1.inodes i).direct bidx newb b = _
        rw [Function.update_noteq hb, hin1]
      · show (Function.update st1.inodes i _ i).type = _
        rw [Function.update_same, hin1]
      · show (Function.update st1.inodes i _ i).size = _
        rw [Function.update_same, hin1]
      · show (Function.update st1.inodes i _ i).parent = _
        rw [Function.update_same, hin1]
      · intro j hj
        show Function.update st1.inodes i _ j = _
        rw [Function.update_noteq hj, hin1]
      · intro γ hγ
        show bitmap_test st1.block_bitmap γ = true
        rw [hbm1]
        exact bitmap_test_set_true_of _ _ _ hγ
      · intro γ hγ
        have hγ1 : bitmap_test st1.block_bitmap γ = false := hγ
        rw [hbm1] at hγ1
        exact (bitmap_test_false_of_set_true _ _ _ hγ1).1
  · rename_i hinv
    split at h
    · cases h
    · rename_i blk hread
      have hlt : (st.inodes i).direct bidx < LUXFS_DATA_BLOCK_COUNT := by
        unfold disk_read_data_block at hread
        split at hread
        · cases hread
        · omega
      cases h
      exact ⟨(st.inodes i).direct bidx, hlt, rfl, fun b _ => rfl, rfl, rfl, rfl,
        fun j _ => rfl, rfl, rfl, rfl, fun γ hγ => hγ, fun γ hγ => hγ, Or.inr ⟨rfl, hinv⟩⟩

/-- The empty-source base case of `fs_write_loop`. -/
theorem fs_write_loop_nil (st : LuxfsState) (i wo : Nat) :
    fs_write_loop st i [] wo = (true, st, wo) := by
  unfold fs_write_loop
  rw [dif_pos rfl]

/-- One unfolded iteration of `fs_write_loop` on a non-empty source with an
in-range block index. -/
theorem fs_write_loop_cons (st : LuxfsState) (i : Nat) (src : List Nat) (wo : Nat)
    (hsrc : src ≠ []) (hbi : ¬ LUXFS_DIRECT_BLOCKS ≤ wo / ATA_SECTOR_SIZE) :
    fs_write_loop st i src wo =
      match fs_write_step st i (wo / ATA_SECTOR_SIZE) with
      | none => (false, st, wo)
      | some (st2, blkbuf) =>
          match disk_write_data_block st2 ((st2.inodes i).direct (wo / ATA_SECTOR_SIZE))
            (fun k => if wo % ATA_SECTOR_SIZE ≤ k ∧
                k < wo % ATA_SECTOR_SIZE +
                  min (ATA_SECTOR_SIZE - wo % ATA_SECTOR_SIZE) src.length
              then src.getD (k - wo % ATA_SECTOR_SIZE) 0 else blkbuf k) with
          | none => (false, st2, wo)
          | some st3 => fs_write_loop st3 i
              (src.drop (min (ATA_SECTOR_SIZE - wo % ATA_SECTOR_SIZE) src.length))
              (wo + min (ATA_SECTOR_SIZE - wo % ATA_SECTOR_SIZE) src.length) := by
  rw [fs_write_loop]
  rw [dif_neg hsrc, if_neg hbi]

/-- All direct pointers of inode `i` that are allocated point into the data
region and are marked in the block bitmap. -/
def InoPtrsOk (st : LuxfsState) (i : Nat) : Prop :=
  ∀ b, b < LUXFS_DIRECT_BLOCKS → (st.inodes i).direct b ≠ LUXFS_INVALID_BLOCK →
    (st.inodes i).direct b < LUXFS_DATA_BLOCK_COUNT ∧
    bitmap_test st.block_bitmap ((st.inodes i).direct b) = true

/-- No two allocated direct pointers of inode `i` reference the same data
block. -/
def InoPtrsDistinct (st : LuxfsState) (i : Nat) : Prop :=
  ∀ b, b < LUXFS_DIRECT_BLOCKS → ∀ b', b' < LUXFS_DIRECT_BLOCKS → b ≠ b' →
    (st.inodes i).direct b ≠ LUXFS_INVALID_BLOCK →
    (st.inodes i).direct b' ≠ LUXFS_INVALID_BLOCK →
    (st.inodes i).direct b ≠ (st.inodes i).direct b'

/-- What a successful `fs_write_loop` run from state `st` at write offset
`wo` over `len` bytes does to the state. -/
structure WriteLoopEffect (st R : LuxfsState) (i wo len : Nat) : Prop where
  nil_eq : len = 0 → R = st
  other_inodes : ∀ j, j ≠ i → R.inodes j = st.inodes j
  type_eq : (R.inodes i).type = (st.inodes i).type
  size_eq : (R.inodes i).size = (st.inodes i).size
  parent_eq : (R.inodes i).parent = (st.inodes i).parent
  low_slots : ∀ b, b < wo / ATA_SECTOR_SIZE → (R.inodes i).direct b = (st.inodes i).direct b
  new_or_old : ∀ b, b < LUXFS_DIRECT_BLOCKS → (R.inodes i).direct b ≠ LUXFS_INVALID_BLOCK →
    (R.inodes i).direct b = (st.inodes i).direct b ∨
    bitmap_test st.block_bitmap ((R.inodes i).direct b) = false
  marks_grow : ∀ β, bitmap_test st.block_bitmap β = true → bitmap_test R.block_bitmap β = true
  data_frame : ∀ β, (∀ b, wo / ATA_SECTOR_SIZE ≤ b → b < LUXFS_DIRECT_BLOCKS →
    (R.inodes i).direct b ≠ β) → R.disk_data β = st.disk_data β
  mounted_eq : R.mounted = st.mounted
  root_eq : R.root_inode = st.root_inode

/-- Reading the `src.length` bytes back from file offset `wo` — through any
state holding `R`'s data-region image and any inode record holding `R`'s
direct pointers for inode `i` — returns exactly `src`. -/
def ReadsBack (R : LuxfsState) (i wo : Nat) (src : List Nat) : Prop :=
  ∀ (str : LuxfsState) (ino : LuxfsInode), str.disk_data = R.disk_data →
    (∀ b, b < LUXFS_DIRECT_BLOCKS → ino.direct b = (R.inodes i).direct b) →
    fs_read_loop str ino wo src.length = some src

/-- The copy loop of `fs_write`, when it succeeds on well-formed pointers,
advances the write offset by exactly the source length, touches only inode
`i`'s direct slots from `wo / 512` up and the data blocks they reference,
only grows the set of allocated blocks, and leaves the file readable: the
written bytes read back verbatim. -/
theorem fs_write_loop_spec : ∀ (n : Nat) (src : List Nat) (st : LuxfsState) (i wo : Nat),
    src.length = n →
    InoPtrsOk st i → InoPtrsDistinct st i →
    (fs_write_loop st i src wo).1 = true →
    (fs_write_loop st i src wo).2.2 = wo + src.length ∧
    WriteLoopEffect st (fs_write_loop st i src wo).2.1 i wo src.length ∧
    ReadsBack (fs_write_loop st i src wo).2.1 i wo src := by
  intro n
  induction n using Nat.strong_induction_on with
  | _ n ih =>
      intro src st i wo hlen hok hdis hsucc
      by_cases hsrc : src = []
      · subst hsrc
        rw [fs_write_loop_nil]
        refine ⟨by simp, ?_, ?_⟩
        · exact ⟨fun _ => rfl, fun j _ => rfl, rfl, rfl, rfl, fun b _ => rfl,
            fun b _ _ => Or.inl rfl, fun β h => h, fun β _ => rfl, rfl, rfl⟩
        · intro str ino hdd hdir
          show fs_read_loop str ino wo 0 = some []
          unfold fs_read_loop
          rw [dif_pos rfl]
      · have hlen0 : 0 < src.length := List.length_pos.mpr hsrc
        by_cases hbi : LUXFS_DIRECT_BLOCKS ≤ wo / ATA_SECTOR_SIZE
        · rw [fs_write_loop] at hsucc
          rw [dif_neg hsrc, if_pos hbi] at hsucc
          simp at hsucc
        · have hBlt : wo / ATA_SECTOR_SIZE < LUXFS_DIRECT_BLOCKS := by omega
          rw [fs_write_loop_cons st i src wo hsrc hbi] at hsucc ⊢
          cases hstep : fs_write_step st i (wo / ATA_SECTOR_SIZE) with
          | none =>
              rw [hstep] at hsucc
              simp at hsucc
          | some p =>
              obtain ⟨st2, blkbuf⟩ := p
              rw [hstep] at hsucc
              dsimp only at hsucc ⊢
              set chunk := min (ATA_SECTOR_SIZE - wo % ATA_SECTOR_SIZE) src.length with hchunk
              set blk2 : Nat → Nat := fun k =>
                if wo % ATA_SECTOR_SIZE ≤ k ∧ k < wo % ATA_SECTOR_SIZE + chunk
                then src.getD (k - wo % ATA_SECTOR_SIZE) 0 else blkbuf k with hblk2
              obtain ⟨β, hβlt, hb2self, hb2other, hty2, hsz2, hpa2, hoth2, hdd2, hm2, hr2,
                hgrow2, hback2, hβcase⟩ := fs_write_step_some st i _ st2 blkbuf hstep
              rw [hb2self] at hsucc ⊢
              cases hwrite : disk_write_data_block st2 β blk2 with
              | none =>
                  rw [hwrite] at hsucc
                  simp at hsucc
              | some st3 =>
                  rw [hwrite] at hsucc
                  dsimp only at hsucc ⊢
                  obtain ⟨hβlt2, hst3⟩ := disk_write_data_block_some st2 β blk2 st3 hwrite
                  have hino3 : st3.inodes = st2.inodes := by rw [hst3]
                  have hbm3 : st3.block_bitmap = st2.block_bitmap := by rw [hst3]
                  have hdd3 : st3.disk_data = Function.update st2.disk_data β blk2 := by
                    rw [hst3]
                  have hm3 : st3.mounted = st2.mounted := by rw [hst3]
                  have hr3 : st3.root_inode = st2.root_inode := by rw [hst3]
                  have hch1 : 1 ≤ chunk := by
                    rw [hchunk]
                    simp only [ATA_SECTOR_SIZE]
                    omega
                  have hchle : chunk ≤ src.length := by
                    rw [hchunk]
                    exact Nat.min_le_right _ _
                  have hdroplen : (src.drop chunk).length = src.length - chunk :=
                    List.length_drop _ _
                  have hβne : β ≠ LUXFS_INVALID_BLOCK := by
                    have h1 : LUXFS_DATA_BLOCK_COUNT < LUXFS_INVALID_BLOCK := by decide
                    omega
                  have hdir3self : (st3.inodes i).direct (wo / ATA_SECTOR_SIZE) = β := by
                    rw [hino3]
                    exact hb2self
                  have hdir3other : ∀ b, b ≠ wo / ATA_SECTOR_SIZE →
                      (st3.inodes i).direct b = (st.inodes i).direct b := by
                    intro b hb
                    rw [hino3]
                    exact hb2other b hb
                  have hmark3β : bitmap_test st3.block_bitmap β = true := by
                    rw [hbm3]
                    rcases hβcase with ⟨_, h2⟩ | ⟨hold, holdv⟩
                    · exact h2
                    · have h3 := (hok _ hBlt holdv).2
                      rw [hold] at h3
                      exact hgrow2 β h3
                  have hok3 : InoPtrsOk st3 i := by
                    intro b hb hv
                    by_cases hbB : b = wo / ATA_SECTOR_SIZE
                    · rw [hbB, hdir3self]
                      exact ⟨hβlt, hmark3β⟩
                    · rw [hdir3other b hbB] at hv ⊢
                      obtain ⟨h1, h2⟩ := hok b hb hv
                      refine ⟨h1, ?_⟩
                      rw [hbm3]
                      exact hgrow2 _ h2
                  have hfreshβ : ∀ b', b' ≠ wo / ATA_SECTOR_SIZE → b' < LUXFS_DIRECT_BLOCKS →
                      (st.inodes i).direct b' ≠ LUXFS_INVALID_BLOCK →
                      β ≠ (st.inodes i).direct b' := by
                    intro b' hb' hblt' hv'
                    rcases hβcase with ⟨hfree, _⟩ | ⟨hold, holdv⟩
                    · intro hcontra
                      have h1 := (hok b' hblt' hv').2
                      rw [← hcontra] at h1
                      rw [h1] at hfree
                      cases hfree
                    · have h := (hdis b' hblt' (wo / ATA_SECTOR_SIZE) hBlt hb' hv' holdv).symm
                      rw [hold] at h
                      exact h
                  have hdis3 : InoPtrsDistinct st3 i := by
                    intro b hb b' hb' hne hv hv'
                    by_cases hbB : b = wo / ATA_SECTOR_SIZE
                    · subst hbB
                      rw [hdir3self]
                      rw [hdir3other b' (Ne.symm hne)] at hv' ⊢
                      exact hfreshβ b' (Ne.symm hne) hb' hv'
                    · by_cases hb'B : b' = wo / ATA_SECTOR_SIZE
                      · subst hb'B
                        rw [hdir3self]
                        rw [hdir3other b hbB] at hv ⊢
                        exact fun h => (hfreshβ b hbB hb hv) h.symm
                      · rw [hdir3other b hbB] at hv ⊢
                        rw [hdir3other b' hb'B] at hv' ⊢
                        exact hdis b hb b' hb' hne hv hv'
                  have hdlt : (src.drop chunk).length < n := by
                    rw [hdroplen]
                    omega
                  obtain ⟨hwo', he', hrb'⟩ :=
                    ih _ hdlt (src.drop chunk) st3 i (wo + chunk) rfl hok3 hdis3 hsucc
                  have hmain : ((fs_write_loop st3 i (src.drop chunk)
                        (wo + chunk)).2.1.inodes i).direct (wo / ATA_SECTOR_SIZE) = β ∧
                      (fs_write_loop st3 i (src.drop chunk)
                        (wo + chunk)).2.1.disk_data β = st3.disk_data β := by
                    by_cases hnil : (src.drop chunk).length = 0
                    · rw [he'.nil_eq hnil]
                      exact ⟨hdir3self, rfl⟩
                    · have hfill : chunk = ATA_SECTOR_SIZE - wo % ATA_SECTOR_SIZE := by
                        rw [hdroplen] at hnil
                        rw [hchunk]
                        rw [hchunk] at hnil
                        simp only [ATA_SECTOR_SIZE] at hnil ⊢
                        omega
                      have hdiv : (wo + chunk) / ATA_SECTOR_SIZE = wo / ATA_SECTOR_SIZE + 1 := by
                        rw [hfill]
                        simp only [ATA_SECTOR_SIZE]
                        omega
                      have hself : ((fs_write_loop st3 i (src.drop chunk)
                          (wo + chunk)).2.1.inodes i).direct (wo / ATA_SECTOR_SIZE) = β := by
                        rw [he'.low_slots _ (by rw [hdiv]; omega)]
                        exact hdir3self
                      refine ⟨hself, ?_⟩
                      apply he'.data_frame
                      intro b hb1 hb2
                      rw [hdiv] at hb1
                      by_cases hv : ((fs_write_loop st3 i (src.drop chunk)
                          (wo + chunk)).2.1.inodes i).direct b = LUXFS_INVALID_BLOCK
                      · rw [hv]
                        exact Ne.symm hβne
                      · rcases he'.new_or_old b hb2 hv with h1 | h1
                        · rw [h1, hdir3other b (by omega)]
                          have hstv : (st.inodes i).direct b ≠ LUXFS_INVALID_BLOCK := by
                            rw [h1, hdir3other b (by omega)] at hv
                            exact hv
                          exact Ne.symm (hfreshβ b (by omega) hb2 hstv)
                        · intro hcontra
                          rw [hcontra] at h1
                          rw [hmark3β] at h1
                          cases h1
                  refine ⟨?_, ?_, ?_⟩
                  · rw [hwo', hdroplen]
                    omega
                  · refine ⟨fun h => absurd h (by omega), ?_, ?_, ?_, ?_, ?_, ?_, ?_, ?_, ?_, ?_⟩
                    · intro j hj
                      rw [he'.other_inodes j hj, hino3]
                      exact hoth2 j hj
                    · rw [he'.type_eq, hino3]
                      exact hty2
                    · rw [he'.size_eq, hino3]
                      exact hsz2
                    · rw [he'.parent_eq, hino3]
                      exact hpa2
                    · intro b hb
                      have h1 : b < (wo + chunk) / ATA_SECTOR_SIZE :=
                        lt_of_lt_of_le hb (Nat.div_le_div_right (Nat.le_add_right _ _))
                      rw [he'.low_slots b h1, hdir3other b (by omega)]
                    · intro b hb hv
                      rcases he'.new_or_old b hb hv with h1 | h1
                      · by_cases hbB : b = wo / ATA_SECTOR_SIZE
                        · subst hbB
                          rw [h1, hdir3self]
                          rcases hβcase with ⟨hfree, _⟩ | ⟨hold, _⟩
                          · exact Or.inr hfree
                          · exact Or.inl hold.symm
                        · rw [h1, hdir3other b hbB]
                          exact Or.inl rfl
                      · right
                        have h2 : bitmap_test st2.block_bitmap
                            (((fs_write_loop st3 i (src.drop chunk)
                              (wo + chunk)).2.1.inodes i).direct b) = false := by
                          rw [← hbm3]
                          exact h1
                        exact hback2 _ h2
                    · intro γ hγ
                      apply he'.marks_grow
                      rw [hbm3]
                      exact hgrow2 γ hγ
                    · intro γ hcond
                      have hγβ : β ≠ γ := by
                        have h1 := hcond (wo / ATA_SECTOR_SIZE) (le_refl _) hBlt
                        rw [hmain.1] at h1
                        exact h1
                      have hstep1 : (fs_write_loop st3 i (src.drop chunk)
                          (wo + chunk)).2.1.disk_data γ = st3.disk_data γ := by
                        by_cases hnil : (src.drop chunk).length = 0
                        · rw [he'.nil_eq hnil]
                        · apply he'.data_frame
                          intro b hb1 hb2
                          exact hcond b
                            (le_trans (Nat.div_le_div_right (Nat.le_add_right wo chunk)) hb1)
                            hb2
                      rw [hstep1, hdd3, Function.update_noteq (Ne.symm hγβ), hdd2]
                    · rw [he'.mounted_eq, hm3, hm2]
                    · rw [he'.root_eq, hr3, hr2]
                  · intro str ino hdd hdir
                    have hRdataβ : (fs_write_loop st3 i (src.drop chunk)
                        (wo + chunk)).2.1.disk_data β = blk2 := by
                      rw [hmain.2, hdd3]
                      exact Function.update_same _ _ _
                    have hstrβ : str.disk_data β = blk2 := by
                      rw [congrFun hdd β, hRdataβ]
                    have hbytes : ((List.range chunk).map
                        fun k => blk2 (wo % ATA_SECTOR_SIZE + k)) = src.take chunk := by
                      have h1 : ∀ k ∈ List.range chunk,
                          blk2 (wo % ATA_SECTOR_SIZE + k) = src.getD k 0 := by
                        intro k hk
                        rw [List.mem_range] at hk
                        rw [hblk2]
                        dsimp only
                        rw [if_pos ⟨Nat.le_add_right _ _, by omega⟩]
                        rw [show wo % ATA_SECTOR_SIZE + k - wo % ATA_SECTOR_SIZE = k from by omega]
                      rw [List.map_congr_left h1]
                      exact range_map_getD_eq_take src chunk hchle
                    have hrec := hrb' str ino hdd hdir
                    rw [hdroplen] at hrec
                    rw [fs_read_loop]
                    rw [dif_neg (by omega : ¬ src.length = 0)]
                    rw [if_neg hbi]
                    rw [show ino.direct (wo / ATA_SECTOR_SIZE) = β from by
                      rw [hdir _ hBlt, hmain.1]]
                    rw [if_neg hβne]
                    rw [show disk_read_data_block str β = some (str.disk_data β) from by
                      unfold disk_read_data_block
                      rw [if_neg (by omega)]]
                    dsimp only
                    rw [← hchunk, hrec]
                    dsimp only
                    rw [hstrβ, hbytes, List.take_append_drop]

theorem sizeUpdated_facts (st : LuxfsState) (i wo : Nat) :
    ((sizeUpdated st i wo).inodes i).type = (st.inodes i).type ∧
    ((sizeUpdated st i wo).inodes i).parent = (st.inodes i).parent ∧
    (∀ b, ((sizeUpdated st i wo).inodes i).direct b = (st.inodes i).direct b) ∧
    (∀ j, j ≠ i → (sizeUpdated st i wo).inodes j = st.inodes j) ∧
    (sizeUpdated st i wo).disk_data = st.disk_data ∧
    (sizeUpdated st i wo).mounted = st.mounted ∧
    (sizeUpdated st i wo).root_inode = st.root_inode ∧
    ((sizeUpdated st i wo).inodes i).size = max (st.inodes i).size wo := by
  unfold sizeUpdated
  by_cases h : (st.inodes i).size < wo
  · rw [if_pos h]
    refine ⟨?_, ?_, ?_, ?_, rfl, rfl, rfl, ?_⟩
    · show (Function.update st.inodes i { st.inodes i with size := wo } i).type = _
      rw [Function.update_same]
    · show (Function.update st.inodes i { st.inodes i with size := wo } i).parent = _
      rw [Function.update_same]
    · intro b
      show (Function.update st.inodes i { st.inodes i with size := wo } i).direct b = _
      rw [Function.update_same]
    · intro j hj
      show Function.update st.inodes i { st.inodes i with size := wo } j = _
      rw [Function.update_noteq hj]
    · show (Function.update st.inodes i { st.inodes i with size := wo } i).size = _
      rw [Function.update_same]
      exact (Nat.max_eq_right (Nat.le_of_lt h)).symm
  · rw [if_neg h]
    exact ⟨rfl, rfl, fun b => rfl, fun j _ => rfl, rfl, rfl, rfl,
      (Nat.max_eq_left (Nat.not_lt.mp h)).symm⟩

/-- A zero-length `fs_read` of an existing file succeeds with zero bytes. -/
theorem fs_read_zero_len (st4 : LuxfsState) (path : List Nat) (offset i : Nat)
    (hm4 : st4.mounted = true) (hres4 : luxfs_resolve st4 path = some i)
    (hty4 : (st4.inodes i).type = LUXFS_NODE_FILE) :
    fs_read st4 path offset 0 = some (0, []) := by
  unfold fs_read
  rw [if_neg (by simp [fs_ready, hm4])]
  simp only [hres4]
  rw [if_neg (by simp [hty4])]
  by_cases hsz : (st4.inodes i).size ≤ offset
  · rw [if_pos hsz]
  · rw [if_neg hsz]
    rw [Nat.min_zero]
    rw [show fs_read_loop st4 (st4.inodes i) offset 0 = some [] from by
      unfold fs_read_loop
      rw [dif_pos rfl]]
    rfl

/-- The common tail of a successful non-empty `fs_write`: after the copy
loop, the size bump and the inode flush, re-resolving the path still finds
inode `i` and reading the written range back returns the written bytes.
`T` is the state the loop started from (`st` itself, or the truncated
state). -/
theorem fs_write_tail_roundtrip (st T : LuxfsState) (path : List Nat) (offset : Nat)
    (data : List Nat) (i : Nat) (st2q : LuxfsState) (woq : Nat) (st4 : LuxfsState)
    (hd : data ≠ [])
    (hres : luxfs_resolve st path = some i)
    (hty : (st.inodes i).type = LUXFS_NODE_FILE)
    (hmst : st.mounted = true)
    (hTj : ∀ j, j ≠ i → T.inodes j = st.inodes j)
    (hTt : (T.inodes i).type = (st.inodes i).type)
    (hTp : (T.inodes i).parent = (st.inodes i).parent)
    (hTd : T.disk_data = st.disk_data)
    (hTroot : T.root_inode = st.root_inode)
    (hTm : T.mounted = st.mounted)
    (hTmark : ∀ j b, (st.inodes j).type = LUXFS_NODE_DIR → b < LUXFS_DIRECT_BLOCKS →
      (st.inodes j).direct b ≠ LUXFS_INVALID_BLOCK →
      bitmap_test T.block_bitmap ((st.inodes j).direct b) = true)
    (hTptr : ∀ b, b < LUXFS_DIRECT_BLOCKS → (T.inodes i).direct b ≠ LUXFS_INVALID_BLOCK →
      (T.inodes i).direct b = (st.inodes i).direct b)
    (hdirdis : ∀ j b b', (st.inodes j).type = LUXFS_NODE_DIR → b < LUXFS_DIRECT_BLOCKS →
      b' < LUXFS_DIRECT_BLOCKS → (st.inodes j).direct b ≠ LUXFS_INVALID_BLOCK →
      (st.inodes j).direct b ≠ (st.inodes i).direct b')
    (hwo : woq = offset + data.length)
    (heT : WriteLoopEffect T st2q i offset data.length)
    (hrb : ReadsBack st2q i offset data)
    (heqf : luxfs_flush_inode (sizeUpdated st2q i woq) i = some st4) :
    fs_read st4 path offset data.length = some (data.length, data) := by
  have hi4 : i < LUXFS_MAX_INODES := luxfs_flush_inode_lt _ _ _ heqf
  have hst4 : st4 = flushedState (sizeUpdated st2q i woq) i := by
    have h := luxfs_flush_inode_some (sizeUpdated st2q i woq) i hi4
    rw [heqf] at h
    exact Option.some.inj h
  obtain ⟨hsuT, hsuP, hsuD, hsuO, hsuDD, hsuM, hsuR, hsuS⟩ := sizeUpdated_facts st2q i woq
  have hst4i : st4.inodes = (sizeUpdated st2q i woq).inodes := by
    rw [hst4]
    rfl
  have hst4dd : st4.disk_data = (sizeUpdated st2q i woq).disk_data := by
    rw [hst4]
    rfl
  have hst4m : st4.mounted = (sizeUpdated st2q i woq).mounted := by
    rw [hst4]
    rfl
  have hst4r : st4.root_inode = (sizeUpdated st2q i woq).root_inode := by
    rw [hst4]
    rfl
  have hB4 : ∀ j, j ≠ i → st4.inodes j = st.inodes j := by
    intro j hj
    rw [hst4i, hsuO j hj, heT.other_inodes j hj, hTj j hj]
  have hCt4 : (st4.inodes i).type = (st.inodes i).type := by
    rw [hst4i, hsuT, heT.type_eq, hTt]
  have hCp4 : (st4.inodes i).parent = (st.inodes i).parent := by
    rw [hst4i, hsuP, heT.parent_eq, hTp]
  have hD4 : ∀ j, (st.inodes j).type = LUXFS_NODE_DIR → ∀ b, b < LUXFS_DIRECT_BLOCKS →
      (st.inodes j).direct b ≠ LUXFS_INVALID_BLOCK →
      st4.disk_data ((st.inodes j).direct b) = st.disk_data ((st.inodes j).direct b) := by
    intro j hjt b hb hv
    rw [hst4dd, hsuDD]
    have h1 : st2q.disk_data ((st.inodes j).direct b) =
        T.disk_data ((st.inodes j).direct b) := by
      apply heT.data_frame
      intro b' hb'1 hb'2
      by_cases hv2 : (st2q.inodes i).direct b' = LUXFS_INVALID_BLOCK
      · rw [hv2]
        exact Ne.symm hv
      · rcases heT.new_or_old b' hb'2 hv2 with h2 | h2
        · rw [h2]
          have hvT : (T.inodes i).direct b' ≠ LUXFS_INVALID_BLOCK := by
            rw [← h2]
            exact hv2
          rw [hTptr b' hb'2 hvT]
          exact Ne.symm (hdirdis j b b' hjt hb hb'2 hv)
        · intro hcontra
          rw [hcontra] at h2
          rw [hTmark j b hjt hb hv] at h2
          cases h2
    rw [h1, hTd]
  have hroot4 : st4.root_inode = st.root_inode := by
    rw [hst4r, hsuR, heT.root_eq, hTroot]
  have hm4 : st4.mounted = true := by
    rw [hst4m, hsuM, heT.mounted_eq, hTm, hmst]
  have hres4 : luxfs_resolve st4 path = some i := by
    rw [luxfs_resolve_congr st st4 i path hty hB4 hCt4 hCp4 hD4 hroot4]
    exact hres
  have hlen0 : 0 < data.length := List.length_pos.mpr hd
  have hsize4 : offset + data.length ≤ (st4.inodes i).size := by
    rw [hst4i, hsuS, hwo]
    exact Nat.le_max_right _ _
  unfold fs_read
  rw [if_neg (by simp [fs_ready, hm4])]
  simp only [hres4]
  rw [if_neg (show ¬ ((st4.inodes i).type ≠ LUXFS_NODE_FILE) from by
    rw [hCt4, hty]
    simp)]
  rw [if_neg (show ¬ ((st4.inodes i).size ≤ offset) from by omega)]
  rw [show min ((st4.inodes i).size - offset) data.length = data.length from by omega]
  rw [hrb st4 (st4.inodes i) (by rw [hst4dd, hsuDD]) (fun b hb => by rw [hst4i, hsuD b])]

/-- Conclusion of claim C4: after the write, reading `data.length` bytes at
the same offset through the same path succeeds with exactly the written
bytes. -/
def RoundTripStatement (st : LuxfsState) (path : List Nat) (offset : Nat)
    (data : List Nat) (truncate : Bool) : Prop :=
  fs_read (fs_write st path offset data truncate).2 path offset data.length =
    some (data.length, data)

/-- C4: on a well-formed filesystem (the path resolves to a file whose
allocated pointers are in range, marked and pairwise distinct, and every
directory's blocks are marked and disjoint from the file's blocks), a
successful `fs_write` of bytes `data` at `offset` followed by an `fs_read`
of `data.length` bytes at `offset` returns exactly `data` — for either
value of `truncate`.  The ceiling `offset + data.length ≤ 4096` is implied
by the write's success. -/
theorem fs_write_read_roundtrip (st : LuxfsState) (path : List Nat) (offset : Nat)
    (data : List Nat) (truncate : Bool) (i : Nat)
    (hres : luxfs_resolve st path = some i)
    (hok : InoPtrsOk st i)
    (hdis : InoPtrsDistinct st i)
    (hdirm : ∀ j b, (st.inodes j).type = LUXFS_NODE_DIR → b < LUXFS_DIRECT_BLOCKS →
      (st.inodes j).direct b ≠ LUXFS_INVALID_BLOCK →
      bitmap_test st.block_bitmap ((st.inodes j).direct b) = true)
    (hdirdis : ∀ j b b', (st.inodes j).type = LUXFS_NODE_DIR → b < LUXFS_DIRECT_BLOCKS →
      b' < LUXFS_DIRECT_BLOCKS → (st.inodes j).direct b ≠ LUXFS_INVALID_BLOCK →
      (st.inodes j).direct b ≠ (st.inodes i).direct b')
    (hw : (fs_write st path offset data truncate).1 = true) :
    RoundTripStatement st path offset data truncate := by
  unfold RoundTripStatement
  unfold fs_write at hw ⊢
  by_cases hm : ¬ fs_ready st = true
  · rw [if_pos hm] at hw
    simp at hw
  · rw [if_neg hm] at hw ⊢
    have hmst : st.mounted = true := by
      push_neg at hm
      exact hm
    by_cases ho1 : LUXFS_DIRECT_BLOCKS * ATA_SECTOR_SIZE < offset
    · rw [if_pos ho1] at hw
      simp at hw
    · rw [if_neg ho1] at hw ⊢
      by_cases ho2 : LUXFS_DIRECT_BLOCKS * ATA_SECTOR_SIZE - offset < data.length
      · rw [if_pos ho2] at hw
        simp at hw
      · rw [if_neg ho2] at hw ⊢
        simp only [hres] at hw ⊢
        by_cases hty0 : (st.inodes i).type ≠ LUXFS_NODE_FILE
        · rw [if_pos hty0] at hw
          simp at hw
        · rw [if_neg hty0] at hw ⊢
          push_neg at hty0
          by_cases hsz : ¬ truncate = true ∧ (st.inodes i).size < offset
          · rw [if_pos hsz] at hw
            simp at hw
          · rw [if_neg hsz] at hw ⊢
            cases truncate with
            | true =>
                simp only [eq_self_iff_true, if_true] at hw ⊢
                by_cases hrel : (luxfs_release_inode_blocks st i).2 = false
                · rw [if_pos hrel] at hw
                  simp at hw
                · rw [if_neg hrel] at hw ⊢
                  simp only [eq_false (by decide : ¬ ((true : Bool) = false)),
                    if_false] at hw ⊢
                  obtain ⟨_, relsz, relty, relpa, reldi, reloth, relbf, relbc, relmo, relro,
                    relda, relib, reldn, reldb⟩ :=
                    luxfs_release_inode_blocks_spec st i (fun b hb hv => (hok b hb hv).1)
                  have hTj : ∀ j, j ≠ i → (truncatedState st i).inodes j = st.inodes j := by
                    intro j hj
                    show Function.update (luxfs_release_inode_blocks st i).1.inodes i
                      { (luxfs_release_inode_blocks st i).1.inodes i with size := 0 } j = _
                    rw [Function.update_noteq hj]
                    exact reloth j hj
                  have hTdi : ∀ b, b < LUXFS_DIRECT_BLOCKS →
                      ((truncatedState st i).inodes i).direct b = LUXFS_INVALID_BLOCK := by
                    intro b hb
                    rw [truncatedState_inodes_self]
                    exact reldi b hb
                  have hTt : ((truncatedState st i).inodes i).type = (st.inodes i).type := by
                    rw [truncatedState_inodes_self]
                    exact relty
                  have hTp : ((truncatedState st i).inodes i).parent =
                      (st.inodes i).parent := by
                    rw [truncatedState_inodes_self]
                    exact relpa
                  have hTd : (truncatedState st i).disk_data = st.disk_data := relda
                  have hTroot : (truncatedState st i).root_inode = st.root_inode := relro
                  have hTm : (truncatedState st i).mounted = st.mounted := relmo
                  have hokT : InoPtrsOk (truncatedState st i) i := by
                    intro b hb hv
                    exact absurd (hTdi b hb) hv
                  have hdisT : InoPtrsDistinct (truncatedState st i) i := by
                    intro b hb b' hb' hne hv hv'
                    exact absurd (hTdi b hb) hv
                  have hTmark : ∀ j b, (st.inodes j).type = LUXFS_NODE_DIR →
                      b < LUXFS_DIRECT_BLOCKS →
                      (st.inodes j).direct b ≠ LUXFS_INVALID_BLOCK →
                      bitmap_test (truncatedState st i).block_bitmap
                        ((st.inodes j).direct b) = true := by
                    intro j b hjt hb hv
                    show bitmap_test (luxfs_release_inode_blocks st i).1.block_bitmap _ = true
                    rw [relbf _ (fun b' hb' => Ne.symm (hdirdis j b b' hjt hb hb' hv))]
                    exact hdirm j b hjt hb hv
                  have hTptr : ∀ b, b < LUXFS_DIRECT_BLOCKS →
                      ((truncatedState st i).inodes i).direct b ≠ LUXFS_INVALID_BLOCK →
                      ((truncatedState st i).inodes i).direct b =
                        (st.inodes i).direct b := by
                    intro b hb hv
                    exact absurd (hTdi b hb) hv
                  by_cases hd : data = []
                  · subst hd
                    simp only [eq_self_iff_true, if_true] at hw ⊢
                    split at hw
                    · rename_i st4 heqf
                      show fs_read st4 path offset 0 = some (0, [])
                      have hB4 : ∀ j, j ≠ i → st4.inodes j = st.inodes j := by
                        intro j hj
                        have hi4 := luxfs_flush_inode_lt _ _ _ heqf
                        have hst4 : st4 = flushedState (truncatedState st i) i := by
                          have h := luxfs_flush_inode_some (truncatedState st i) i hi4
                          rw [heqf] at h
                          exact Option.some.inj h
                        rw [hst4]
                        exact hTj j hj
                      have hst4 : st4 = flushedState (truncatedState st i) i := by
                        have h := luxfs_flush_inode_some (truncatedState st i) i
                          (luxfs_flush_inode_lt _ _ _ heqf)
                        rw [heqf] at h
                        exact Option.some.inj h
                      have hCt4 : (st4.inodes i).type = (st.inodes i).type := by
                        rw [hst4]
                        exact hTt
                      have hCp4 : (st4.inodes i).parent = (st.inodes i).parent := by
                        rw [hst4]
                        exact hTp
                      have hD4 : ∀ j, (st.inodes j).type = LUXFS_NODE_DIR →
                          ∀ b, b < LUXFS_DIRECT_BLOCKS →
                          (st.inodes j).direct b ≠ LUXFS_INVALID_BLOCK →
                          st4.disk_data ((st.inodes j).direct b) =
                            st.disk_data ((st.inodes j).direct b) := by
                        intro j hjt b hb hv
                        rw [hst4]
                        show (truncatedState st i).disk_data _ = _
                        rw [hTd]
                      have hroot4 : st4.root_inode = st.root_inode := by
                        rw [hst4]
                        exact hTroot
                      have hm4 : st4.mounted = true := by
                        rw [hst4]
                        show (truncatedState st i).mounted = true
                        rw [hTm, hmst]
                      have hres4 : luxfs_resolve st4 path = some i := by
                        rw [luxfs_resolve_congr st st4 i path hty0 hB4 hCt4 hCp4 hD4 hroot4]
                        exact hres
                      exact fs_read_zero_len st4 path offset i hm4 hres4
                        (by rw [hCt4]; exact hty0)
                    · simp at hw
                  · rw [if_neg hd] at hw ⊢
                    split at hw
                    · simp at hw
                    · rename_i st2q woq heql
                      split at hw
                      · rename_i st4 heqf
                        show fs_read st4 path offset data.length =
                          some (data.length, data)
                        obtain ⟨hwoT, heT0, hrbT0⟩ := fs_write_loop_spec data.length data
                          (truncatedState st i) i offset rfl hokT hdisT (by rw [heql])
                        rw [heql] at hwoT heT0 hrbT0
                        have heT : WriteLoopEffect (truncatedState st i) st2q i offset
                            data.length := heT0
                        have hrbT : ReadsBack st2q i offset data := hrbT0
                        exact fs_write_tail_roundtrip st (truncatedState st i) path offset
                          data i st2q woq st4 hd hres hty0 hmst hTj hTt hTp hTd hTroot hTm
                          hTmark hTptr hdirdis hwoT heT hrbT heqf
                      · simp at hw
            | false =>
                simp only [eq_false (by decide : ¬ ((false : Bool) = true)),
                  if_false] at hw ⊢
                simp only [eq_false (by decide : ¬ ((true : Bool) = false)),
                  if_false] at hw ⊢
                by_cases hd : data = []
                · subst hd
                  simp only [eq_self_iff_true, if_true] at hw ⊢
                  split at hw
                  · rename_i st4 heqf
                    show fs_read st4 path offset 0 = some (0, [])
                    have hst4 : st4 = flushedState st i := by
                      have h := luxfs_flush_inode_some st i
                        (luxfs_flush_inode_lt _ _ _ heqf)
                      rw [heqf] at h
                      exact Option.some.inj h
                    have hm4 : st4.mounted = true := by
                      rw [hst4]
                      exact hmst
                    have hres4 : luxfs_resolve st4 path = some i := by
                      rw [luxfs_resolve_congr st st4 i path hty0
                        (fun j hj => by rw [hst4]; rfl)
                        (by rw [hst4]; rfl)
                        (by rw [hst4]; rfl)
                        (fun j hjt b hb hv => by rw [hst4]; rfl)
                        (by rw [hst4]; rfl)]
                      exact hres
                    exact fs_read_zero_len st4 path offset i hm4 hres4
                      (by rw [hst4]; exact hty0)
                  · simp at hw
                · rw [if_neg hd] at hw ⊢
                  split at hw
                  · simp at hw
                  · rename_i st2q woq heql
                    split at hw
                    · rename_i st4 heqf
                      show fs_read st4 path offset data.length =
                        some (data.length, data)
                      obtain ⟨hwoT, heT0, hrbT0⟩ := fs_write_loop_spec data.length data
                        st i offset rfl hok hdis (by rw [heql])
                      rw [heql] at hwoT heT0 hrbT0
                      have heT : WriteLoopEffect st st2q i offset data.length := heT0
                      have hrbT : ReadsBack st2q i offset data := hrbT0
                      exact fs_write_tail_roundtrip st st path offset data i st2q woq st4
                        hd hres hty0 hmst (fun j _ => rfl) rfl rfl rfl rfl rfl
                        hdirm (fun b hb hv => rfl) hdirdis hwoT heT hrbT heqf
                    · simp at hw

theorem fs_write_read_roundtrip_witness :
    luxfs_resolve exState pathA = some 1 ∧
    InoPtrsOk exState 1 ∧
    InoPtrsDistinct exState 1 ∧
    (∀ j b, (exState.inodes j).type = LUXFS_NODE_DIR → b < LUXFS_DIRECT_BLOCKS →
      (exState.inodes j).direct b ≠ LUXFS_INVALID_BLOCK →
      bitmap_test exState.block_bitmap ((exState.inodes j).direct b) = true) ∧
    (∀ j b b', (exState.inodes j).type = LUXFS_NODE_DIR → b < LUXFS_DIRECT_BLOCKS →
      b' < LUXFS_DIRECT_BLOCKS → (exState.inodes j).direct b ≠ LUXFS_INVALID_BLOCK →
      (exState.inodes j).direct b ≠ (exState.inodes 1).direct b') ∧
    (fs_write exState pathA 0 [104, 105] false).1 = true ∧
    RoundTripStatement exState pathA 0 [104, 105] false := by
  have hres : luxfs_resolve exState pathA = some 1 := by
    simp [luxfs_resolve, luxfs_tokenize_path, luxfs_tokenize_path.tokenizeLoop, pathA,
      resolveLoop, luxfs_dir_find, luxfs_dir_iterate, dirIterLoop, exState, exRootInode,
      consumeRecBytes, decodeDirRecord, cstr, exBlock0, exRecordBytes, disk_read_data_block,
      LUXFS_DATA_BLOCK_COUNT, LUXFS_DATA_BLOCK_START, LUXFS_INODE_TABLE_BLOCKS,
      LUXFS_INODES_PER_BLOCK, LUXFS_INODE_SIZE_BYTES, ATA_SECTOR_SIZE, LUXFS_TOTAL_SECTORS,
      LUXFS_INODE_TABLE_START, DIR_RECORD_SIZE, FS_NAME_MAX, LUXFS_MAX_INODES,
      LUXFS_NODE_DIR, LUXFS_NODE_FILE, LUXFS_NODE_FREE, LUXFS_INVALID_BLOCK,
      LUXFS_DIRECT_BLOCKS, LUXFS_MAX_PATH_DEPTH, defaultInode, exFileInode]
  have hok : InoPtrsOk exState 1 := by
    intro b hb hv
    exfalso
    apply hv
    show (exState.inodes 1).direct b = LUXFS_INVALID_BLOCK
    simp [exState, exFileInode]
  have hdis : InoPtrsDistinct exState 1 := by
    intro b hb b' hb' hne hv hv'
    exfalso
    apply hv
    show (exState.inodes 1).direct b = LUXFS_INVALID_BLOCK
    simp [exState, exFileInode]
  have hdirm : ∀ j b, (exState.inodes j).type = LUXFS_NODE_DIR → b < LUXFS_DIRECT_BLOCKS →
      (exState.inodes j).direct b ≠ LUXFS_INVALID_BLOCK →
      bitmap_test exState.block_bitmap ((exState.inodes j).direct b) = true := by
    intro j b hjt hb hv
    by_cases h0 : j = 0
    · subst h0
      by_cases hb0 : b = 0
      · subst hb0
        decide
      · exfalso
        apply hv
        show (exState.inodes 0).direct b = LUXFS_INVALID_BLOCK
        simp [exState, exRootInode, hb0]
    · exfalso
      by_cases h1 : j = 1
      · subst h1
        simp [exState, exFileInode, LUXFS_NODE_DIR, LUXFS_NODE_FILE] at hjt
      · simp [exState, defaultInode, h0, h1, LUXFS_NODE_DIR, LUXFS_NODE_FREE] at hjt
  have hdirdis : ∀ j b b', (exState.inodes j).type = LUXFS_NODE_DIR →
      b < LUXFS_DIRECT_BLOCKS → b' < LUXFS_DIRECT_BLOCKS →
      (exState.inodes j).direct b ≠ LUXFS_INVALID_BLOCK →
      (exState.inodes j).direct b ≠ (exState.inodes 1).direct b' := by
    intro j b b' hjt hb hb' hv
    rw [show (exState.inodes 1).direct b' = LUXFS_INVALID_BLOCK from by
      simp [exState, exFileInode]]
    exact hv
  have hw : (fs_write exState pathA 0 [104, 105] false).1 = true := by
    simp [fs_write, fs_ready, luxfs_resolve, luxfs_tokenize_path,
      luxfs_tokenize_path.tokenizeLoop, pathA, resolveLoop, luxfs_dir_find,
      luxfs_dir_iterate, dirIterLoop, exState, exRootInode,
      consumeRecBytes, decodeDirRecord, cstr, exBlock0, exRecordBytes, disk_read_data_block,
      disk_write_data_block, fs_write_loop, fs_write_step, luxfs_alloc_block, scanFreeBlock,
      luxfs_flush_block_bitmap, luxfs_flush_inode, sizeUpdated, truncatedState, bitmap_set,
      bitmap_test, zeroBlock, Function.update,
      LUXFS_DATA_BLOCK_COUNT, LUXFS_DATA_BLOCK_START, LUXFS_INODE_TABLE_BLOCKS,
      LUXFS_INODES_PER_BLOCK, LUXFS_INODE_SIZE_BYTES, ATA_SECTOR_SIZE, LUXFS_TOTAL_SECTORS,
      LUXFS_INODE_TABLE_START, DIR_RECORD_SIZE, FS_NAME_MAX, LUXFS_MAX_INODES,
      LUXFS_NODE_DIR, LUXFS_NODE_FILE, LUXFS_NODE_FREE, LUXFS_INVALID_BLOCK,
      LUXFS_DIRECT_BLOCKS, LUXFS_MAX_PATH_DEPTH, defaultInode, exFileInode]
  exact ⟨hres, hok, hdis, hdirm, hdirdis, hw,
    fs_write_read_roundtrip exState pathA 0 [104, 105] false 1 hres hok hdis hdirm hdirdis hw⟩

end LuxKernel
